import Mathlib

/-! In-memory store and cart/order lifecycle (`backend/database`,
`backend/handlers`, `backend/middleware`)

A shallow embedding of `database.go`, `models.go`, the gin handlers of
`handlers.go`, `ClearCart` and `RateLimiter` of `enhanced_middleware.go`, and
the paging arithmetic of `GetItems` of `enhanced_handlers.go`.

Modelling conventions

* `uint` is a natural number; the only arithmetic on it (`nextID++`) is taken
  modulo `2 ^ uintBits`.
* `time.Time` is a natural number; the readings of `time.Now()` inside one call
  are supplied by a clock `Nat → Nat` (the `k`-th reading of the call).
* A Go `map[K]*V` is an association list with at most one pair per key.  The
  order of the list stands for the order in which `range` visits the map.
  Values are stored by value; a write through a pointer obtained from the map
  is a write to the entry it was obtained from.
* `sync.RWMutex` is explicit state.  A `Lock` on a mutex that is already held
  never returns: the handler outcome is then `Outcome.blocked`, and the store
  returned with it is the store at the moment the goroutine stopped.
* `bcrypt.GenerateFromPassword` is external: its result for the call is an
  input (`none` for an error).  `bcrypt.CompareHashAndPassword` and
  `utils.GenerateToken` are parameters of `LoginUser`.
* `ClearCart` is written against a query API (`Where`, `First`, `Delete`) that
  `database.go` does not declare.  The answer of its `First` query is a
  parameter of `ClearCart`, bound only by the condition written at the call;
  its `Delete` statement is read on the `CartItems` collection of the store.
* `c.ShouldBindJSON` with `binding:"required"` rejects a zero-valued field, and
  a number that does not fit the `uint` field it is bound to; the text of the
  error message is abbreviated to `"required"`.
* A handler is a function from its inputs and the store to an `Outcome` and the
  store it leaves behind.
* Go's `int` and `int64` are integers whose operations wrap round the 64-bit
  two's complement range (`int64Wrap`); `time.Duration` is an integer count of
  nanoseconds and `Time.Sub` saturates as in package `time`.
-/

set_option autoImplicit false

/-! ## models.go -/

/-- Model of `models.Item`. -/
structure Item where
  ID : Nat
  Name : String
  Status : String
  Image : String
  CreatedAt : Nat
deriving DecidableEq

/-- The fields of `models.CartItem`, over the type of the embedded cart value
(`models.Cart` and `models.CartItem` refer to each other). -/
structure CartItemOf (C : Type) where
  CartID : Nat
  ItemID : Nat
  Cart : C
  Item : Item
deriving DecidableEq

/-- Model of `models.Cart`. -/
structure Cart where
  ID : Nat
  UserID : Nat
  Name : String
  Status : String
  CreatedAt : Nat
  CartItems : List (CartItemOf Cart)

/-- Model of `models.CartItem`. -/
abbrev CartItem := CartItemOf Cart

/-- Model of `models.Order`. -/
structure Order where
  ID : Nat
  CartID : Nat
  UserID : Nat
  CreatedAt : Nat
  Cart : Cart

/-- The zero value of `models.Cart`. -/
def Cart.zero : Cart :=
  { ID := 0, UserID := 0, Name := "", Status := "", CreatedAt := 0, CartItems := [] }

/-- Model of `models.User`. -/
structure User where
  ID : Nat
  Username : String
  Password : String
  Token : String := ""
  CartID : Nat := 0
  CreatedAt : Nat
  Cart : Cart := Cart.zero
  Orders : List Order := []

/-! ## Go maps -/

/-- A Go map as an association list; list order is `range` order. -/
abbrev GoMap (K V : Type) := List (K × V)

namespace GoMap

variable {K V : Type} [DecidableEq K]

/-- Lookup `v, exists := m[k]`. -/
def get? (m : GoMap K V) (k : K) : Option V :=
  (m.find? (fun kv => decide (kv.1 = k))).map Prod.snd

/-- Membership test `_, exists := m[k]`. -/
def contains (m : GoMap K V) (k : K) : Bool :=
  m.any (fun kv => decide (kv.1 = k))

/-- Assignment `m[k] = v`: overwrite the entry of `k`, or add one. -/
def set : GoMap K V → K → V → GoMap K V
  | [], k, v => [(k, v)]
  | (k', v') :: m, k, v => if k' = k then (k, v) :: m else (k', v') :: set m k v

/-- The keys of the map. -/
def keys (m : GoMap K V) : List K := m.map Prod.fst

end GoMap

/-! ## sync.RWMutex -/

/-- The state of a `sync.RWMutex`: whether a writer holds it, and the number of
readers holding it. -/
structure RWMutex where
  writer : Bool := false
  readers : Nat := 0
deriving DecidableEq

namespace RWMutex

/-- Model of `Lock()`: returns (with the mutex held for writing) only when the mutex is
free; `none` when the caller blocks. -/
def Lock (m : RWMutex) : Option RWMutex :=
  if m.writer = false ∧ m.readers = 0 then some { m with writer := true } else none

/-- Model of `Unlock()`. -/
def Unlock (m : RWMutex) : RWMutex := { m with writer := false }

/-- Model of `RLock()`: returns only when no writer holds the mutex. -/
def RLock (m : RWMutex) : Option RWMutex :=
  if m.writer = false then some { m with readers := m.readers + 1 } else none

/-- Model of `RUnlock()`. -/
def RUnlock (m : RWMutex) : RWMutex := { m with readers := m.readers - 1 }

/-- Nobody holds the mutex. -/
def free (m : RWMutex) : Prop := m.writer = false ∧ m.readers = 0

instance (m : RWMutex) : Decidable m.free := by
  unfold free; infer_instance

end RWMutex

/-! ## database.go -/

/-- Width of Go's `uint` on the 64-bit targets the server is built for. -/
def uintBits : Nat := 64

/-- Model of `database.InMemoryDB`. -/
structure InMemoryDB where
  Users : GoMap Nat User := []
  Items : GoMap Nat Item := []
  Carts : GoMap Nat Cart := []
  CartItems : GoMap String CartItem := []
  Orders : GoMap Nat Order := []
  Mutex : RWMutex := {}
  nextID : Nat := 0

/-- Model of `func (db *InMemoryDB) GetNextID() uint`: the identifier and the store after
the call, or `none` when `db.Mutex.Lock()` blocks. -/
def GetNextID (db : InMemoryDB) : Option (Nat × InMemoryDB) :=
  match db.Mutex.Lock with
  | none => none
  | some m =>
    let db := { db with Mutex := m }
    let id := db.nextID
    let db := { db with nextID := (db.nextID + 1) % 2 ^ uintBits }
    some (id, { db with Mutex := db.Mutex.Unlock })

/-- The names and images of the item literals of `seedItems`, in order. -/
def seedCatalog : List (String × String) :=
  [("Laptop", "/assets/products/laptop.jpg"),
   ("Smartphone", "/assets/products/smartphone.jpg"),
   ("Headphones", "/assets/products/headphones.jpg"),
   ("Keyboard", "/assets/products/keyboard.jpg"),
   ("Mouse", "/assets/products/mouse.jpg"),
   ("Monitor", "/assets/products/monitor.jpg"),
   ("Tablet", "/assets/products/tablet.jpg"),
   ("Webcam", "/assets/products/webcam.jpg")]

/-- Evaluation of the slice literal `items := []models.Item{...}` of `seedItems`:
one `GetNextID` and one clock reading per element, left to right.  `k` is the
index of the next clock reading. -/
def seedItemValues (clock : Nat → Nat) :
    List (String × String) → Nat → InMemoryDB → Option (List Item × InMemoryDB)
  | [], _, db => some ([], db)
  | (name, image) :: rest, k, db =>
    match GetNextID db with
    | none => none
    | some (id, db) =>
      let item : Item :=
        { ID := id, Name := name, Status := "active", Image := image, CreatedAt := clock k }
      match seedItemValues clock rest (k + 1) db with
      | none => none
      | some (items, db) => some (item :: items, db)

/-- The loop `for _, item := range items { DB.Items[item.ID] = &item }`.

With a loop variable per iteration (Go 1.22 and later) every key receives a
pointer to its own copy.  With one loop variable for the whole loop (earlier
Go) every key receives the same pointer, and after the loop that variable
holds the last element of the slice. -/
def seedItemsStore (perIteration : Bool) (items : List Item) (m : GoMap Nat Item) :
    GoMap Nat Item :=
  let stored : Item → Item := fun item =>
    if perIteration then item else (items.getLast?).getD item
  items.foldl (fun m item => m.set item.ID (stored item)) m

/-- Model of `seedItems()`. -/
def seedItems (perIteration : Bool) (clock : Nat → Nat) (db : InMemoryDB) :
    Option InMemoryDB :=
  if db.Items.length = 0 then
    match seedItemValues clock seedCatalog 0 db with
    | none => none
    | some (items, db) =>
      some { db with Items := seedItemsStore perIteration items db.Items }
  else some db

/-- Model of `seedAdminUser()`.  `hashed` is the result of
`bcrypt.GenerateFromPassword([]byte("Admin@123"), bcrypt.DefaultCost)`; `k` is
the index of the next clock reading. -/
def seedAdminUser (hashed : Option String) (clock : Nat → Nat) (k : Nat)
    (db : InMemoryDB) : Option InMemoryDB :=
  if db.Users.any (fun ku => decide (ku.2.Username = "admin")) then some db
  else
    match hashed with
    | none => some db
    | some hashedPassword =>
      match GetNextID db with
      | none => none
      | some (adminID, db) =>
        let adminUser : User :=
          { ID := adminID, Username := "admin", Password := hashedPassword,
            CreatedAt := clock k }
        match GetNextID db with
        | none => none
        | some (cartID, db) =>
          let adminCart : Cart :=
            { ID := cartID, UserID := adminID, Name := "Admin Cart", Status := "active",
              CreatedAt := clock (k + 1), CartItems := [] }
          let db := { db with Carts := db.Carts.set cartID adminCart }
          let adminUser := { adminUser with CartID := cartID }
          some { db with Users := db.Users.set adminID adminUser }

/-- Model of `Connect()`: replaces the global `DB` (whose previous value is `old`) by a
fresh store and seeds it.  `none` when the call does not return. -/
def Connect (perIteration : Bool) (hashed : Option String) (clock : Nat → Nat)
    (_old : Option InMemoryDB) : Option InMemoryDB :=
  let db : InMemoryDB :=
    { Users := [], Items := [], Carts := [], CartItems := [], Orders := [], nextID := 1 }
  match seedItems perIteration clock db with
  | none => none
  | some db => seedAdminUser hashed clock seedCatalog.length db

/-! ## handlers.go -/

/-- Status `http.StatusOK`. -/
abbrev StatusOK : Nat := 200
/-- Status `http.StatusCreated`. -/
abbrev StatusCreated : Nat := 201
/-- Status `http.StatusBadRequest`. -/
abbrev StatusBadRequest : Nat := 400
/-- Status `http.StatusUnauthorized`. -/
abbrev StatusUnauthorized : Nat := 401
/-- Status `http.StatusNotFound`. -/
abbrev StatusNotFound : Nat := 404
/-- Status `http.StatusConflict`. -/
abbrev StatusConflict : Nat := 409
/-- Status `http.StatusInternalServerError`. -/
abbrev StatusInternalServerError : Nat := 500

/-- The JSON value a handler passes to `c.JSON`. -/
inductive Body where
  | error (msg : String)
  | message (msg : String)
  | user (u : User)
  | item (i : Item)
  | cart (c : Cart)
  | order (o : Order)
  | orders (os : List Order)
  | login (token : String) (u : User)

/-- What a call of a handler amounts to: a response, or a goroutine that waits
for the store's mutex and never answers. -/
inductive Outcome where
  | responded (status : Nat) (body : Body)
  | blocked

/-- The status of a response; `none` for a blocked call. -/
def Outcome.status? : Outcome → Option Nat
  | .responded status _ => some status
  | .blocked => none

/-- Model of `handlers.UserRequest`. -/
structure UserRequest where
  Username : String
  Password : String
deriving DecidableEq

/-- Model of `handlers.ItemRequest`. -/
structure ItemRequest where
  Name : String
  Status : String
deriving DecidableEq

/-- Model of `handlers.AddToCartRequest`.  `ItemID` is the number sent as
`item_id`; whether it fits the `uint` field is tested when the request is
bound. -/
structure AddToCartRequest where
  ItemID : Nat
deriving DecidableEq

/-- The cart-line key `fmt.Sprintf("%d-%d", cartID, itemID)`. -/
def cartItemKey (cartID itemID : Nat) : String :=
  toString cartID ++ "-" ++ toString itemID

/-- The loop shared by `AddToCart`, `GetUserCart` and `CreateOrder`:
`for _, c := range DB.Carts { if c.UserID == userID && c.Status == "active" {...; break} }`.
Returns the entry the loop stops at. -/
def findActiveCart (db : InMemoryDB) (userID : Nat) : Option (Nat × Cart) :=
  db.Carts.find? (fun kc => decide (kc.2.UserID = userID) && decide (kc.2.Status = "active"))

/-- Model of `func CreateUser(c *gin.Context)`.  `hashed` is the result of
`bcrypt.GenerateFromPassword` for this call. -/
def CreateUser (req : UserRequest) (hashed : Option String) (clock : Nat → Nat)
    (db : InMemoryDB) : Outcome × InMemoryDB :=
  if req.Username = "" ∨ req.Password = "" then
    (.responded StatusBadRequest (.error "required"), db)
  else
    match db.Mutex.Lock with
    | none => (.blocked, db)
    | some m =>
      let db := { db with Mutex := m }
      if db.Users.any (fun ku => decide (ku.2.Username = req.Username)) then
        (.responded StatusConflict (.error "User already exists"),
          { db with Mutex := db.Mutex.Unlock })
      else
        match hashed with
        | none =>
          (.responded StatusInternalServerError (.error "Failed to hash password"),
            { db with Mutex := db.Mutex.Unlock })
        | some hashedPassword =>
          match GetNextID db with
          | none => (.blocked, db)
          | some (userID, db) =>
            let user : User :=
              { ID := userID, Username := req.Username, Password := hashedPassword,
                CreatedAt := clock 0 }
            match GetNextID db with
            | none => (.blocked, db)
            | some (cartID, db) =>
              let cart : Cart :=
                { ID := cartID, UserID := userID, Name := "Default Cart", Status := "active",
                  CreatedAt := clock 1, CartItems := [] }
              let db := { db with Carts := db.Carts.set cartID cart }
              let user := { user with CartID := cartID }
              let db := { db with Users := db.Users.set userID user }
              let responseUser := { user with Password := "" }
              (.responded StatusCreated (.user responseUser),
                { db with Mutex := db.Mutex.Unlock })

/-- Model of `func CreateItem(c *gin.Context)`. -/
def CreateItem (req : ItemRequest) (clock : Nat → Nat) (db : InMemoryDB) :
    Outcome × InMemoryDB :=
  if req.Name = "" then
    (.responded StatusBadRequest (.error "required"), db)
  else
    let req := if req.Status = "" then { req with Status := "active" } else req
    match db.Mutex.Lock with
    | none => (.blocked, db)
    | some m =>
      let db := { db with Mutex := m }
      match GetNextID db with
      | none => (.blocked, db)
      | some (itemID, db) =>
        let item : Item :=
          { ID := itemID, Name := req.Name, Status := req.Status, Image := "",
            CreatedAt := clock 0 }
        let db := { db with Items := db.Items.set itemID item }
        (.responded StatusCreated (.item item), { db with Mutex := db.Mutex.Unlock })

/-- Model of `func AddToCart(c *gin.Context)`.  `userID` is the value of
`c.Get("user_id")`, `none` when the key is not set.  `c.ShouldBindJSON` fails
for an `item_id` that is zero (`binding:"required"`) or does not fit `uint`. -/
def AddToCart (userID : Option Nat) (req : AddToCartRequest) (db : InMemoryDB) :
    Outcome × InMemoryDB :=
  match userID with
  | none => (.responded StatusUnauthorized (.error "User not authenticated"), db)
  | some userID =>
    if req.ItemID = 0 ∨ 2 ^ uintBits ≤ req.ItemID then
      (.responded StatusBadRequest (.error "required"), db)
    else
      match db.Mutex.Lock with
      | none => (.blocked, db)
      | some m =>
        let db := { db with Mutex := m }
        match findActiveCart db userID with
        | none =>
          (.responded StatusNotFound (.error "Cart not found"),
            { db with Mutex := db.Mutex.Unlock })
        | some (_, cart) =>
          match db.Items.get? req.ItemID with
          | none =>
            (.responded StatusNotFound (.error "Item not found"),
              { db with Mutex := db.Mutex.Unlock })
          | some item =>
            let key := cartItemKey cart.ID req.ItemID
            if db.CartItems.contains key then
              (.responded StatusConflict (.error "Item already in cart"),
                { db with Mutex := db.Mutex.Unlock })
            else
              let cartItem : CartItem :=
                { CartID := cart.ID, ItemID := req.ItemID, Cart := cart, Item := item }
              let db := { db with CartItems := db.CartItems.set key cartItem }
              (.responded StatusCreated (.message "Item added to cart successfully"),
                { db with Mutex := db.Mutex.Unlock })

/-- Model of `func CreateOrder(c *gin.Context)`. -/
def CreateOrder (userID : Option Nat) (clock : Nat → Nat) (db : InMemoryDB) :
    Outcome × InMemoryDB :=
  match userID with
  | none => (.responded StatusUnauthorized (.error "User not authenticated"), db)
  | some userID =>
    match db.Mutex.Lock with
    | none => (.blocked, db)
    | some m =>
      let db := { db with Mutex := m }
      match findActiveCart db userID with
      | none =>
        (.responded StatusNotFound (.error "No active cart found"),
          { db with Mutex := db.Mutex.Unlock })
      | some (cartKey, cart) =>
        let hasItems := db.CartItems.any (fun kv => decide (kv.2.CartID = cart.ID))
        if hasItems = false then
          (.responded StatusBadRequest (.error "Cart is empty"),
            { db with Mutex := db.Mutex.Unlock })
        else
          match GetNextID db with
          | none => (.blocked, db)
          | some (orderID, db) =>
            let order : Order :=
              { ID := orderID, CartID := cart.ID, UserID := cart.UserID,
                CreatedAt := clock 0, Cart := cart }
            let db := { db with Orders := db.Orders.set orderID order }
            -- `cart.Status = "ordered"` through the pointer taken from `DB.Carts`
            let cart := { cart with Status := "ordered" }
            let db := { db with Carts := db.Carts.set cartKey cart }
            match GetNextID db with
            | none => (.blocked, db)
            | some (newCartID, db) =>
              let newCart : Cart :=
                { ID := newCartID, UserID := cart.UserID, Name := "Default Cart",
                  Status := "active", CreatedAt := clock 1, CartItems := [] }
              let db := { db with Carts := db.Carts.set newCartID newCart }
              let db :=
                match db.Users.get? cart.UserID with
                | some user =>
                  { db with Users := db.Users.set cart.UserID { user with CartID := newCartID } }
                | none => db
              (.responded StatusCreated (.order order), { db with Mutex := db.Mutex.Unlock })

/-! ## Reachable stores -/

/-- The stores reachable from `Connect` by calls of `CreateUser`, `CreateItem`,
`AddToCart` and `CreateOrder`.  A call is a step of the sequence when it
responds; a call that blocks never completes. -/
inductive Reachable : InMemoryDB → Prop
  | connect (db : InMemoryDB) :
      (∃ perIteration hashed clock old, Connect perIteration hashed clock old = some db) →
      Reachable db
  | createUser (db db' : InMemoryDB) :
      Reachable db →
      (∃ req hashed clock status body,
        CreateUser req hashed clock db = (.responded status body, db')) →
      Reachable db'
  | createItem (db db' : InMemoryDB) :
      Reachable db →
      (∃ req clock status body, CreateItem req clock db = (.responded status body, db')) →
      Reachable db'
  | addToCart (db db' : InMemoryDB) :
      Reachable db →
      (∃ userID req status body, AddToCart userID req db = (.responded status body, db')) →
      Reachable db'
  | createOrder (db db' : InMemoryDB) :
      Reachable db →
      (∃ userID clock status body, CreateOrder userID clock db = (.responded status body, db')) →
      Reachable db'

/-- The carts of `db` that belong to `userID` and are `"active"`. -/
def activeCarts (db : InMemoryDB) (userID : Nat) : List (Nat × Cart) :=
  db.Carts.filter (fun kc => decide (kc.2.UserID = userID) && decide (kc.2.Status = "active"))

/-- The cart lines of `db` for the pair `(cartID, itemID)`. -/
def linesOf (db : InMemoryDB) (cartID itemID : Nat) : List (String × CartItem) :=
  db.CartItems.filter (fun kv => decide (kv.2.CartID = cartID) && decide (kv.2.ItemID = itemID))

/-- The cart lines of `db` that belong to the cart `cartID`. -/
def cartLines (db : InMemoryDB) (cartID : Nat) : List (String × CartItem) :=
  db.CartItems.filter (fun kv => decide (kv.2.CartID = cartID))

/-- Every cart line is stored under the key built from its own pair. -/
def KeysMatch (db : InMemoryDB) : Prop :=
  ∀ kv ∈ db.CartItems, kv.1 = cartItemKey kv.2.CartID kv.2.ItemID

/-! ## Reading decimal numerals -/

/-- Value of a decimal digit character. -/
def digitValue (c : Char) : Nat := c.toNat - 48

/-- Reads a decimal numeral, most significant digit first, on top of `acc`. -/
def readDecimal (acc : Nat) (cs : List Char) : Nat :=
  cs.foldl (fun a c => 10 * a + digitValue c) acc

/-! ## Sample stores -/

/-- A clock for examples: the `k`-th reading of a call. -/
def sampleClock : Nat → Nat := fun k => 1700000000 + k

/-- The store after `Connect()` on a fresh process, with `"$2a$10$seed"` standing
for the bcrypt hash of the administrator password. -/
def seededDB : InMemoryDB :=
  (Connect true (some "$2a$10$seed") sampleClock none).getD {}

/-- The seeded store after the administrator (user 9) has put item 1 in the
cart: `AddToCart` with `user_id = 9` and `item_id = 1`. -/
def oneLineDB : InMemoryDB :=
  (AddToCart (some 9) { ItemID := 1 } seededDB).2

/-- The request of the test "should create a user successfully" in
`users_test.go`. -/
def testUserRequest : UserRequest := { Username := "testuser", Password := "testpassword" }

/-- The seeded store in which item 8 has been given the status
`"discontinued"`. -/
def discontinuedDB : InMemoryDB :=
  { seededDB with
    Items := seededDB.Items.set 8
      { ID := 8, Name := "Webcam", Status := "discontinued",
        Image := "/assets/products/webcam.jpg", CreatedAt := sampleClock 7 } }

/-! ## The identity sequencer -/

/-- The identifiers `GetNextID` has returned by the time `Connect` is done, most
recent first: `seedAdminUser` stores its two under the cart and the user it
creates, `seedItems` stores its eight as the keys of `Items`. -/
def seedIssued (db : InMemoryDB) : List Nat :=
  db.Carts.keys ++ db.Users.keys ++ db.Items.keys.reverse

/-- Traces of the sequencer.  `Issued db ids`: the store `db` is reachable from
`Connect` by calls of `GetNextID` and of the four handlers, and `ids` are the
values `GetNextID` has returned on the way, most recent first.  A handler call that responds has not
completed a `GetNextID` call of its own (`CreateUser_responded`,
`CreateItem_responded`, `CreateOrder_responded`; `AddToCart` has none). -/
inductive Issued : InMemoryDB → List Nat → Prop
  | connect (db : InMemoryDB) :
      (∃ perIteration hashed clock old, Connect perIteration hashed clock old = some db) →
      Issued db (seedIssued db)
  | getNextID (db db' : InMemoryDB) (id : Nat) (ids : List Nat) :
      Issued db ids → GetNextID db = some (id, db') → Issued db' (id :: ids)
  | createUser (db db' : InMemoryDB) (ids : List Nat) :
      Issued db ids →
      (∃ req hashed clock status body,
        CreateUser req hashed clock db = (.responded status body, db')) →
      Issued db' ids
  | createItem (db db' : InMemoryDB) (ids : List Nat) :
      Issued db ids →
      (∃ req clock status body, CreateItem req clock db = (.responded status body, db')) →
      Issued db' ids
  | addToCart (db db' : InMemoryDB) (ids : List Nat) :
      Issued db ids →
      (∃ userID req status body, AddToCart userID req db = (.responded status body, db')) →
      Issued db' ids
  | createOrder (db db' : InMemoryDB) (ids : List Nat) :
      Issued db ids →
      (∃ userID clock status body, CreateOrder userID clock db = (.responded status body, db')) →
      Issued db' ids

/-- The seeded store with the identifier counter at zero, where it stands after
`2 ^ 64 - 11` further calls of `GetNextID`. -/
def wrappedDB : InMemoryDB := { seededDB with nextID := 0 }

/-! ## handlers.go: read side and login -/

/-- The join `cartWithItems := *cart; cartWithItems.CartItems = ...` of
`GetUserCart`, `GetCartByID`, `GetOrders` and `GetUserOrders`: a copy of the
cart carrying a copy of every cart line whose `CartID` is the cart's `ID`, in
`range` order. -/
def cartWithItems (db : InMemoryDB) (cart : Cart) : Cart :=
  { cart with
    CartItems := (db.CartItems.filter (fun kv => decide (kv.2.CartID = cart.ID))).map Prod.snd }

/-- Model of `func GetUserCart(c *gin.Context)` of `handlers.go`. -/
def GetUserCart (userID : Option Nat) (db : InMemoryDB) : Outcome × InMemoryDB :=
  match userID with
  | none => (.responded StatusUnauthorized (.error "User not authenticated"), db)
  | some userID =>
    match db.Mutex.RLock with
    | none => (.blocked, db)
    | some m =>
      let db := { db with Mutex := m }
      match findActiveCart db userID with
      | none =>
        (.responded StatusNotFound (.error "Cart not found"),
          { db with Mutex := db.Mutex.RUnlock })
      | some (_, cart) =>
        (.responded StatusOK (.cart (cartWithItems db cart)),
          { db with Mutex := db.Mutex.RUnlock })

/-- The body of the loop of `GetUserOrders` for one order of the user: a copy of
the order whose `Cart` is replaced by the joined cart when `DB.Carts` has the
order's `CartID`. -/
def orderWithCart (db : InMemoryDB) (order : Order) : Order :=
  match db.Carts.get? order.CartID with
  | some cart => { order with Cart := cartWithItems db cart }
  | none => order

/-- Model of `func GetUserOrders(c *gin.Context)` of `handlers.go`: the orders
are appended in the order in which `range` visits `DB.Orders`. -/
def GetUserOrders (userID : Option Nat) (db : InMemoryDB) : Outcome × InMemoryDB :=
  match userID with
  | none => (.responded StatusUnauthorized (.error "User not authenticated"), db)
  | some userID =>
    match db.Mutex.RLock with
    | none => (.blocked, db)
    | some m =>
      let db := { db with Mutex := m }
      let orders :=
        (db.Orders.filter (fun ko => decide (ko.2.UserID = userID))).map
          (fun ko => orderWithCart db ko.2)
      (.responded StatusOK (.orders orders), { db with Mutex := db.Mutex.RUnlock })

/-- Modelled from the spec: `utils.GenerateToken`, which `LoginUser` calls, is
not among the sources; the spec leaves the issuance of authentication tokens to
an external collaborator, and the test "should login successfully and return a
token" of `users_test.go` expects the token of a successful login not to be
empty.  A token issuer `generateToken` (`none` for an error) returns no empty
token. -/
def IssuesTokens (generateToken : Nat → String → Option String) : Prop :=
  ∀ id username token, generateToken id username = some token → token ≠ ""

/-- Model of `func LoginUser(c *gin.Context)` of `handlers.go`.
`compareHashAndPassword hash password` is true when
`bcrypt.CompareHashAndPassword` returns no error; `generateToken` is
`utils.GenerateToken`, `none` for an error.  Neither is among the sources. -/
def LoginUser (req : UserRequest) (compareHashAndPassword : String → String → Bool)
    (generateToken : Nat → String → Option String) (db : InMemoryDB) :
    Outcome × InMemoryDB :=
  if req.Username = "" ∨ req.Password = "" then
    (.responded StatusBadRequest (.error "required"), db)
  else
    match db.Mutex.RLock with
    | none => (.blocked, db)
    | some m =>
      let db := { db with Mutex := m }
      match db.Users.find? (fun ku => decide (ku.2.Username = req.Username)) with
      | none =>
        (.responded StatusUnauthorized (.error "Invalid username or password"),
          { db with Mutex := db.Mutex.RUnlock })
      | some (userKey, user) =>
        if compareHashAndPassword user.Password req.Password = false then
          (.responded StatusUnauthorized (.error "Invalid username or password"),
            { db with Mutex := db.Mutex.RUnlock })
        else
          match generateToken user.ID user.Username with
          | none =>
            (.responded StatusInternalServerError (.error "Failed to generate token"),
              { db with Mutex := db.Mutex.RUnlock })
          | some token =>
            -- `user.Token = token` through the pointer taken from `DB.Users`
            let user := { user with Token := token }
            let db := { db with Users := db.Users.set userKey user }
            let responseUser := { user with Password := "" }
            (.responded StatusOK (.login token responseUser),
              { db with Mutex := db.Mutex.RUnlock })

/-! ## middleware: ClearCart -/

/-- What the call `database.DB.Where("user_id = ?", userID).First(&cart)` of
`ClearCart` fixes about its answer.  The query API is not declared by
`database.go`, so the answer `firstCart db userID` (`none` when the query
reports an error) is a parameter of `ClearCart`.  The call gives the query one
condition, the user: an answer is a cart of `Carts` with that `UserID`, and the
query reports an error only when `Carts` has no cart with that `UserID`.  No
condition on `Status` is written at the call. -/
def AnswersUserQuery (firstCart : InMemoryDB → Nat → Option Cart) : Prop :=
  ∀ db userID,
    (∀ cart, firstCart db userID = some cart →
      cart.UserID = userID ∧ ∃ k, (k, cart) ∈ db.Carts) ∧
    (firstCart db userID = none → ∀ kc ∈ db.Carts, kc.2.UserID ≠ userID)

/-- One answer of the query `Where("user_id = ?", userID).First(&cart)`: of the
carts with that `UserID`, the one with the smallest `ID` (the order of the
primary key), and `none` when there is none. -/
def firstByPrimaryKey (db : InMemoryDB) (userID : Nat) : Option Cart :=
  ((db.Carts.filter (fun kc => decide (kc.2.UserID = userID))).map Prod.snd).foldl
    (fun best c =>
      match best with
      | none => some c
      | some b => if c.ID < b.ID then some c else some b)
    none

/-- Modelled from the spec: the statement
`database.DB.Where("cart_id = ?", cartID).Delete(&models.CartItem{})`, whose API
is not declared by `database.go`, read on the `CartItems` collection: every
cart line with that `cart_id` is removed, and no line is not an error. -/
def deleteCartItems (db : InMemoryDB) (cartID : Nat) : InMemoryDB :=
  { db with CartItems := db.CartItems.filter (fun kv => !decide (kv.2.CartID = cartID)) }

/-- Model of `func ClearCart() gin.HandlerFunc` of `enhanced_middleware.go`.
`userID` is the value of `c.Get("userID")`; `firstCart` is the answer of the
query `Where("user_id = ?", userID).First(&cart)`; `deleteFails` says whether
the `Delete` statement reports an error.  The handler takes no lock. -/
def ClearCart (userID : Option Nat) (firstCart : InMemoryDB → Nat → Option Cart)
    (deleteFails : Bool) (db : InMemoryDB) : Outcome × InMemoryDB :=
  match userID with
  | none => (.responded StatusUnauthorized (.error "User not authenticated"), db)
  | some userID =>
    match firstCart db userID with
    | none => (.responded StatusNotFound (.error "Cart not found"), db)
    | some cart =>
      if deleteFails then
        (.responded StatusInternalServerError (.error "Failed to clear cart"), db)
      else
        (.responded StatusOK (.message "Cart cleared successfully"),
          deleteCartItems db cart.ID)

/-! ## States between calls -/

/-- The store `db'` is what one call of `CreateUser`, `CreateItem`, `AddToCart`
or `CreateOrder` leaves behind when started on `db`, whatever its inputs and
whether or not it answers. -/
def CallResult (db db' : InMemoryDB) : Prop :=
  (∃ req hashed clock, (CreateUser req hashed clock db).2 = db') ∨
  (∃ req clock, (CreateItem req clock db).2 = db') ∨
  (∃ userID req, (AddToCart userID req db).2 = db') ∨
  (∃ userID clock, (CreateOrder userID clock db).2 = db')

/-- The `Carts` map has one entry per key and every cart sits under its own
`ID`, as every write `DB.Carts[cartID] = cart` of the sources has it. -/
def CartsKeyed (db : InMemoryDB) : Prop :=
  db.Carts.keys.Nodup ∧ ∀ kc ∈ db.Carts, kc.2.ID = kc.1

/-- The cart line `kv` refers to a cart of `Carts` and to an item of `Items`, and
sits under the key of its own pair. -/
def LineRefers (db : InMemoryDB) (kv : String × CartItem) : Prop :=
  db.Carts.contains kv.2.CartID = true ∧ db.Items.contains kv.2.ItemID = true ∧
  kv.1 = cartItemKey kv.2.CartID kv.2.ItemID

/-! ## More sample stores -/

/-- The administrator's first cart as `seedAdminUser` creates it. -/
def adminCart : Cart :=
  { ID := 10, UserID := 9, Name := "Admin Cart", Status := "active",
    CreatedAt := sampleClock 9, CartItems := [] }

/-- A store in the state the order lifecycle describes after one conversion:
cart 10 of user 9 is `"ordered"` and keeps its line for item 1, order 11 was
made from it, and cart 12 is the user's new active cart. -/
def orderedDB : InMemoryDB :=
  { oneLineDB with
    Users := oneLineDB.Users.map (fun ku => (ku.1, { ku.2 with CartID := 12 }))
    Carts := [(10, { adminCart with Status := "ordered" }),
              (12, { ID := 12, UserID := 9, Name := "Default Cart", Status := "active",
                     CreatedAt := 1700000101, CartItems := [] })]
    Orders := [(11, { ID := 11, CartID := 10, UserID := 9, CreatedAt := 1700000100,
                      Cart := adminCart })]
    nextID := 13 }

/-- The store `orderedDB` after user 9 has put item 2 in the active cart 12. -/
def twoCartsDB : InMemoryDB :=
  (AddToCart (some 9) { ItemID := 2 } orderedDB).2

/-- A store with two orders of user 9: order 11 created at 1700000100 and order
14 created at 1700000200; `range` over `Orders` visits 11 first. -/
def twoOrdersDB : InMemoryDB :=
  { orderedDB with
    Carts := [(10, { adminCart with Status := "ordered" }),
              (12, { ID := 12, UserID := 9, Name := "Default Cart", Status := "ordered",
                     CreatedAt := 1700000101, CartItems := [] }),
              (15, { ID := 15, UserID := 9, Name := "Default Cart", Status := "active",
                     CreatedAt := 1700000201, CartItems := [] })]
    Orders := [(11, { ID := 11, CartID := 10, UserID := 9, CreatedAt := 1700000100,
                      Cart := adminCart }),
               (14, { ID := 14, CartID := 12, UserID := 9, CreatedAt := 1700000200,
                      Cart := { ID := 12, UserID := 9, Name := "Default Cart",
                                Status := "active", CreatedAt := 1700000101,
                                CartItems := [] } })]
    nextID := 16 }

/-- The registration request of the scenario. -/
def aliceRequest : UserRequest := { Username := "alice", Password := "wonderland" }

/-- A login request for the administrator. -/
def adminLogin : UserRequest := { Username := "admin", Password := "Admin@123" }

/-- The orders of a response that carries a list of orders. -/
def Outcome.orders? : Outcome → Option (List Order)
  | .responded _ (.orders os) => some os
  | _ => none

/-! ## middleware: RateLimiter -/

/-- The smallest `time.Duration`, an `int64` count of nanoseconds. -/
def minDuration : Int := -9223372036854775808

/-- The largest `time.Duration`. -/
def maxDuration : Int := 9223372036854775807

/-- Model of `func (t Time) Sub(u Time) Duration` on readings of the monotonic
clock in nanoseconds: the difference, or the smallest or largest duration when
the difference is out of range. -/
def Time.Sub (t u : Int) : Int := max minDuration (min maxDuration (t - u))

/-- Model of `middleware.RateLimiter`. -/
structure RateLimiter where
  requests : GoMap String (List Int) := []
  mutex : RWMutex := {}
  limit : Int
  window : Int

/-- Model of `func NewRateLimiter(limit int, window time.Duration) *RateLimiter`. -/
def NewRateLimiter (limit window : Int) : RateLimiter :=
  { requests := [], limit := limit, window := window }

/-- The value of `rl.requests[ip]`: the nil slice when the map has no such key. -/
def RateLimiter.record (rl : RateLimiter) (ip : String) : List Int :=
  (rl.requests.get? ip).getD []

/-- The test `now.Sub(requestTime) < rl.window` of the cleaning loop. -/
def younger (window now requestTime : Int) : Bool :=
  decide (Time.Sub now requestTime < window)

/-- Model of `func (rl *RateLimiter) Allow(ip string) bool`.  `now` is the
reading of `time.Now()`; `none` when `rl.mutex.Lock()` blocks. -/
def RateLimiter.Allow (rl : RateLimiter) (ip : String) (now : Int) :
    Option (Bool × RateLimiter) :=
  match rl.mutex.Lock with
  | none => none
  | some m =>
    let rl := { rl with mutex := m }
    let rl :=
      match rl.requests.get? ip with
      | some requests =>
        { rl with requests := rl.requests.set ip (requests.filter (younger rl.window now)) }
      | none => rl
    if rl.limit ≤ ((rl.record ip).length : Int) then
      some (false, { rl with mutex := rl.mutex.Unlock })
    else
      some (true,
        { rl with
          requests := rl.requests.set ip (rl.record ip ++ [now])
          mutex := rl.mutex.Unlock })

/-- The times of the requests of `ip` in a log of allowed requests. -/
def allowedOf (log : List (String × Int)) (ip : String) : List Int :=
  (log.filter (fun e => decide (e.1 = ip))).map Prod.snd

/-- Runs of a limiter.  `LimiterRun limit window rl last log`: the limiter `rl`
results from `NewRateLimiter limit window` by a sequence of `Allow` calls whose
clock readings do not decrease, `last` is a lower bound for the next reading
(the last reading, when there was a call), and `log` lists the allowed requests
in the order of the calls. -/
inductive LimiterRun (limit window : Int) : RateLimiter → Int → List (String × Int) → Prop
  | created (start : Int) : LimiterRun limit window (NewRateLimiter limit window) start []
  | allow (rl rl' : RateLimiter) (last now : Int) (log log' : List (String × Int)) :
      LimiterRun limit window rl last log →
      (∃ ip ok, last ≤ now ∧ rl.Allow ip now = some (ok, rl') ∧
        log' = if ok = true then log ++ [(ip, now)] else log) →
      LimiterRun limit window rl' now log'

/-- A limiter after three requests of one address under `NewRateLimiter 2 60`:
at 0 and 10 (allowed) and at 20 (denied). -/
def sampleLimiter : RateLimiter :=
  (((((NewRateLimiter 2 60).Allow "10.0.0.1" 0).getD (false, NewRateLimiter 2 60)).2.Allow
    "10.0.0.1" 10).getD (false, NewRateLimiter 2 60)).2

/-! ## enhanced_handlers.go: the paging arithmetic of GetItems -/

/-- The largest value of Go's `int` and `int64` on the 64-bit targets. -/
def maxInt64 : Int := 9223372036854775807

/-- The result of an `int` or `int64` operation whose exact value is `x`: the
value wraps round the 64-bit two's complement range. -/
def int64Wrap (x : Int) : Int :=
  (x + 9223372036854775808) % 18446744073709551616 - 9223372036854775808

/-- The values `GetItems` computes before it queries: the effective page, the
effective limit and the offset. -/
structure Paging where
  page : Int
  limit : Int
  offset : Int
deriving DecidableEq

/-- Model of the paging part of the enhanced `func GetItems(c *gin.Context)`
(lines 119 to 129).  `page` and `limit` are the values `strconv.Atoi` returned
for the query parameters, its error being ignored. -/
def GetItemsPaging (page limit : Int) : Paging :=
  let page := if page < 1 then 1 else page
  let limit := if limit < 1 ∨ limit > 100 then 20 else limit
  let offset := int64Wrap (int64Wrap (page - 1) * limit)
  { page := page, limit := limit, offset := offset }

/-- Model of `totalPages := (total + int64(limit) - 1) / int64(limit)` of the
enhanced `GetItems` (line 164), for the effective `limit`; the division of Go
truncates toward zero. -/
def GetItemsTotalPages (total limit : Int) : Int :=
  Int.tdiv (int64Wrap (int64Wrap (total + limit) - 1)) limit

/-! ## Go maps -/

/-- Writing under a key the map does not have adds the entry at the end. -/
theorem GoMap.set_of_not_contains {K V : Type} [DecidableEq K] (m : GoMap K V) (k : K)
    (v : V) (h : m.contains k = false) : m.set k v = m ++ [(k, v)] := by
  induction m with
  | nil => rfl
  | cons kv m ih =>
    obtain ⟨k', v'⟩ := kv
    simp only [GoMap.contains, List.any_cons, Bool.or_eq_false_iff, decide_eq_false_iff_not] at h
    simp only [GoMap.set, if_neg h.1, List.cons_append]
    rw [ih (by simpa [GoMap.contains] using h.2)]

/-! ## The mutex -/

theorem RWMutex.Lock_eq_some {m m' : RWMutex} (h : m.Lock = some m') :
    m.free ∧ m'.writer = true ∧ m'.Unlock = m := by
  unfold RWMutex.Lock at h
  split at h
  · rename_i hm
    cases h
    obtain ⟨hw, hr⟩ := hm
    refine ⟨⟨hw, hr⟩, rfl, ?_⟩
    cases m
    simp_all [RWMutex.Unlock]
  · cases h

theorem RWMutex.Lock_of_free {m : RWMutex} (h : m.free) :
    m.Lock = some { m with writer := true } := by
  unfold RWMutex.Lock
  rw [if_pos (by simpa [RWMutex.free] using h)]

theorem RWMutex.Lock_of_writer {m : RWMutex} (h : m.writer = true) : m.Lock = none := by
  unfold RWMutex.Lock
  rw [if_neg]
  simp [h]

/-- The call `GetNextID` blocks whenever the write lock is held, in particular
when the caller itself holds it. -/
theorem GetNextID_of_writer {db : InMemoryDB} (h : db.Mutex.writer = true) :
    GetNextID db = none := by
  unfold GetNextID
  rw [RWMutex.Lock_of_writer h]

/-- A store whose mutex was just taken by `Lock`. -/
theorem GetNextID_locked {db : InMemoryDB} {m : RWMutex} (h : db.Mutex.Lock = some m) :
    GetNextID { db with Mutex := m } = none :=
  GetNextID_of_writer (RWMutex.Lock_eq_some h).2.1

theorem unlock_locked {db : InMemoryDB} {m : RWMutex} (h : db.Mutex.Lock = some m) :
    { db with Mutex := m.Unlock } = db := by
  have := (RWMutex.Lock_eq_some h).2.2
  cases db
  simp_all

/-! ## What a responding call does to the store -/

/-- A response of `CreateUser` is an error response, and leaves the store as it
was: the path to `StatusCreated` goes through `GetNextID` with the mutex held. -/
theorem CreateUser_responded {req : UserRequest} {hashed : Option String} {clock : Nat → Nat}
    {db db' : InMemoryDB} {status : Nat} {body : Body}
    (h : CreateUser req hashed clock db = (.responded status body, db')) :
    db' = db ∧ (status = StatusBadRequest ∨ status = StatusConflict ∨
      status = StatusInternalServerError) := by
  unfold CreateUser at h
  split at h
  · simp only [Prod.mk.injEq, Outcome.responded.injEq] at h
    exact ⟨h.2.symm, Or.inl h.1.1.symm⟩
  · split at h
    · simp at h
    · rename_i m hm
      simp only at h
      split at h
      · simp only [Prod.mk.injEq, Outcome.responded.injEq] at h
        exact ⟨by rw [← h.2, unlock_locked hm], Or.inr (Or.inl h.1.1.symm)⟩
      · split at h
        · simp only [Prod.mk.injEq, Outcome.responded.injEq] at h
          exact ⟨by rw [← h.2, unlock_locked hm], Or.inr (Or.inr h.1.1.symm)⟩
        · rw [GetNextID_locked hm] at h
          simp at h

/-- A response of `CreateItem` is the binding error, with the store as it was. -/
theorem CreateItem_responded {req : ItemRequest} {clock : Nat → Nat}
    {db db' : InMemoryDB} {status : Nat} {body : Body}
    (h : CreateItem req clock db = (.responded status body, db')) :
    db' = db ∧ status = StatusBadRequest := by
  unfold CreateItem at h
  split at h
  · simp only [Prod.mk.injEq, Outcome.responded.injEq] at h
    exact ⟨h.2.symm, h.1.1.symm⟩
  · simp only at h
    split at h
    · simp at h
    · rename_i m hm
      rw [GetNextID_locked hm] at h
      simp at h

/-- A response of `CreateOrder` is an error response, with the store as it was. -/
theorem CreateOrder_responded {userID : Option Nat} {clock : Nat → Nat}
    {db db' : InMemoryDB} {status : Nat} {body : Body}
    (h : CreateOrder userID clock db = (.responded status body, db')) :
    db' = db ∧ (status = StatusUnauthorized ∨ status = StatusNotFound ∨
      status = StatusBadRequest) := by
  unfold CreateOrder at h
  split at h
  · simp only [Prod.mk.injEq, Outcome.responded.injEq] at h
    exact ⟨h.2.symm, Or.inl h.1.1.symm⟩
  · split at h
    · simp at h
    · rename_i m hm
      simp only at h
      split at h
      · simp only [Prod.mk.injEq, Outcome.responded.injEq] at h
        exact ⟨by rw [← h.2, unlock_locked hm], Or.inr (Or.inl h.1.1.symm)⟩
      · split at h
        · simp only [Prod.mk.injEq, Outcome.responded.injEq] at h
          exact ⟨by rw [← h.2, unlock_locked hm], Or.inr (Or.inr h.1.1.symm)⟩
        · rw [GetNextID_locked hm] at h
          simp at h

/-- A response of `AddToCart` either leaves the store as it was (an error
response) or is `StatusCreated` and adds one line under a key that was free. -/
theorem AddToCart_responded {userID : Option Nat} {req : AddToCartRequest}
    {db db' : InMemoryDB} {status : Nat} {body : Body}
    (h : AddToCart userID req db = (.responded status body, db')) :
    (db' = db ∧ status ≠ StatusCreated) ∨
    (status = StatusCreated ∧ db.Mutex.free ∧ req.ItemID ≠ 0 ∧
      ∃ u k cart item, userID = some u ∧ findActiveCart db u = some (k, cart) ∧
        db.Items.get? req.ItemID = some item ∧
        db.CartItems.contains (cartItemKey cart.ID req.ItemID) = false ∧
        db' = { db with CartItems := db.CartItems ++
          [(cartItemKey cart.ID req.ItemID,
            { CartID := cart.ID, ItemID := req.ItemID, Cart := cart, Item := item })] }) := by
  unfold AddToCart at h
  split at h
  · simp only [Prod.mk.injEq, Outcome.responded.injEq] at h
    exact Or.inl ⟨h.2.symm, by rw [← h.1.1]; decide⟩
  · rename_i u
    split at h
    · simp only [Prod.mk.injEq, Outcome.responded.injEq] at h
      exact Or.inl ⟨h.2.symm, by rw [← h.1.1]; decide⟩
    · rename_i hitem
      split at h
      · simp at h
      · rename_i m hm
        simp only at h
        have hfind : ∀ x, findActiveCart { db with Mutex := m } x = findActiveCart db x :=
          fun _ => rfl
        rw [hfind] at h
        split at h
        · simp only [Prod.mk.injEq, Outcome.responded.injEq] at h
          exact Or.inl ⟨by rw [← h.2, unlock_locked hm], by rw [← h.1.1]; decide⟩
        · rename_i k cart hcart
          split at h
          · simp only [Prod.mk.injEq, Outcome.responded.injEq] at h
            exact Or.inl ⟨by rw [← h.2, unlock_locked hm], by rw [← h.1.1]; decide⟩
          · rename_i item hit
            split at h
            · simp only [Prod.mk.injEq, Outcome.responded.injEq] at h
              exact Or.inl ⟨by rw [← h.2, unlock_locked hm], by rw [← h.1.1]; decide⟩
            · rename_i hkey
              simp only [Prod.mk.injEq, Outcome.responded.injEq] at h
              refine Or.inr ⟨h.1.1.symm, (RWMutex.Lock_eq_some hm).1,
                fun h0 => hitem (Or.inl h0), u, k, cart, item, rfl, hcart, hit,
                by simpa using hkey, ?_⟩
              rw [← h.2]
              have hu := (RWMutex.Lock_eq_some hm).2.2
              have hkey' : GoMap.contains db.CartItems (cartItemKey cart.ID req.ItemID) = false := by
                simpa using hkey
              rw [GoMap.set_of_not_contains _ _ _ hkey', hu]

/-! ## The seeded store -/

/-- The call `Connect()` always returns. -/
theorem Connect_returns (perIteration : Bool) (hashed : Option String) (clock : Nat → Nat)
    (old : Option InMemoryDB) : ∃ db, Connect perIteration hashed clock old = some db := by
  cases perIteration <;> cases hashed <;> exact ⟨_, rfl⟩

/-- The store `Connect` produces. -/
theorem Connect_store {perIteration : Bool} {hashed : Option String} {clock : Nat → Nat}
    {old : Option InMemoryDB} {db : InMemoryDB}
    (h : Connect perIteration hashed clock old = some db) :
    db.Mutex = {} ∧ db.CartItems = [] ∧ db.Orders = [] ∧
    db.Items.keys = [1, 2, 3, 4, 5, 6, 7, 8] ∧
    ((hashed = none ∧ db.Users = [] ∧ db.Carts = [] ∧ db.nextID = 9) ∨
     (∃ hp, hashed = some hp ∧
        db.Users = [(9, { ID := 9, Username := "admin", Password := hp, CartID := 10,
                          CreatedAt := clock 8 })] ∧
        db.Carts = [(10, { ID := 10, UserID := 9, Name := "Admin Cart", Status := "active",
                           CreatedAt := clock 9, CartItems := [] })] ∧
        db.nextID = 11)) := by
  cases perIteration <;> cases hashed
  all_goals
    have h' := Option.some.inj h
    subst h'
    first
      | exact ⟨rfl, rfl, rfl, rfl, Or.inl ⟨rfl, rfl, rfl, rfl⟩⟩
      | exact ⟨rfl, rfl, rfl, rfl, Or.inr ⟨_, rfl, rfl, rfl, rfl⟩⟩

/-! ## The sample stores -/

theorem seededDB_reachable : Reachable seededDB :=
  Reachable.connect _ ⟨true, some "$2a$10$seed", sampleClock, none, rfl⟩

theorem oneLineDB_reachable : Reachable oneLineDB :=
  Reachable.addToCart seededDB _ seededDB_reachable
    ⟨some 9, { ItemID := 1 }, StatusCreated, .message "Item added to cart successfully", rfl⟩

/-! ## Invariants of the reachable stores -/

/-- A reachable store differs from a seeded store in its cart lines only, its
mutex is free, and its cart lines are stored under their own keys. -/
theorem Reachable.seeded {db : InMemoryDB} (h : Reachable db) :
    (∃ perIteration hashed clock old db₀,
      Connect perIteration hashed clock old = some db₀ ∧
      db.Users = db₀.Users ∧ db.Items = db₀.Items ∧ db.Carts = db₀.Carts ∧
      db.Orders = db₀.Orders ∧ db.nextID = db₀.nextID) ∧
    db.Mutex.free ∧ KeysMatch db := by
  induction h with
  | connect db hc =>
    obtain ⟨p, hs, c, old, hc⟩ := hc
    have hst := Connect_store hc
    refine ⟨⟨p, hs, c, old, db, hc, rfl, rfl, rfl, rfl, rfl⟩, ?_, ?_⟩
    · rw [hst.1]; exact ⟨rfl, rfl⟩
    · intro kv hkv
      rw [hst.2.1] at hkv
      cases hkv
  | createUser db db' _ hstep ih =>
    obtain ⟨req, hs, c, st, b, hstep⟩ := hstep
    rw [(CreateUser_responded hstep).1]
    exact ih
  | createItem db db' _ hstep ih =>
    obtain ⟨req, c, st, b, hstep⟩ := hstep
    rw [(CreateItem_responded hstep).1]
    exact ih
  | createOrder db db' _ hstep ih =>
    obtain ⟨u, c, st, b, hstep⟩ := hstep
    rw [(CreateOrder_responded hstep).1]
    exact ih
  | addToCart db db' _ hstep ih =>
    obtain ⟨u, req, st, b, hstep⟩ := hstep
    rcases AddToCart_responded hstep with ⟨rfl, _⟩ | ⟨_, _, _, u', k, cart, item, _, _, _, _, rfl⟩
    · exact ih
    · refine ⟨ih.1, ih.2.1, ?_⟩
      intro kv hkv
      rcases List.mem_append.1 hkv with hkv | hkv
      · exact ih.2.2 kv hkv
      · rw [List.mem_singleton.1 hkv]

/-- C1. In every store reachable from `Connect` by `CreateUser`, `CreateItem`,
`AddToCart` and `CreateOrder`, every user identifier has at most one cart in
`Carts` whose `UserID` is that user and whose `Status` is `"active"`. -/
theorem at_most_one_active_cart {db : InMemoryDB} (h : Reachable db) (userID : Nat) :
    (activeCarts db userID).length ≤ 1 := by
  obtain ⟨⟨p, hs, c, old, db₀, hc, _, _, hcarts, _, _⟩, _, _⟩ := h.seeded
  have hlen : db.Carts.length ≤ 1 := by
    rw [hcarts]
    rcases (Connect_store hc).2.2.2.2 with ⟨_, _, h0, _⟩ | ⟨_, _, _, h0, _⟩ <;> simp [h0]
  exact le_trans (List.length_filter_le _ _) hlen

/-- C1, at the seeded store after one `AddToCart`: user 9 has exactly one
active cart. -/
theorem at_most_one_active_cart_witness :
    Reachable oneLineDB ∧ (activeCarts oneLineDB 9).length ≤ 1 ∧
    (activeCarts oneLineDB 9).map Prod.fst = [10] :=
  ⟨oneLineDB_reachable, at_most_one_active_cart oneLineDB_reachable 9, rfl⟩

/-! ## The cart-line key -/

theorem digitValue_digitChar {d : Nat} (h : d < 10) : digitValue (Nat.digitChar d) = d := by
  interval_cases d <;> rfl

theorem digitChar_ne_dash {d : Nat} (h : d < 10) : Nat.digitChar d ≠ '-' := by
  interval_cases d <;> decide

/-- Reading back what `toDigitsCore` writes in front of `ds` yields the number
written, and then continues with `ds`. -/
theorem readDecimal_toDigitsCore (fuel : Nat) :
    ∀ (n : Nat) (ds : List Char), n < fuel →
      readDecimal 0 (Nat.toDigitsCore 10 fuel n ds) = readDecimal n ds := by
  induction fuel with
  | zero => intro n ds h; omega
  | succ fuel ih =>
    intro n ds h
    rw [Nat.toDigitsCore]
    split
    · rename_i h0
      have hn : n % 10 = n := Nat.mod_eq_of_lt (by omega)
      have hdv : digitValue (Nat.digitChar (n % 10)) = n % 10 :=
        digitValue_digitChar (Nat.mod_lt n (by decide))
      simp only [readDecimal, List.foldl_cons, hdv, Nat.mul_zero, Nat.zero_add]
      rw [hn]
    · rename_i h0
      rw [ih (n / 10) _ (by omega)]
      simp only [readDecimal, List.foldl_cons,
        digitValue_digitChar (Nat.mod_lt n (by decide))]
      congr 1
      omega

/-- No character written by `toDigitsCore` is a dash. -/
theorem toDigitsCore_no_dash (fuel : Nat) :
    ∀ (n : Nat) (ds : List Char), '-' ∉ ds → '-' ∉ Nat.toDigitsCore 10 fuel n ds := by
  induction fuel with
  | zero => intro n ds h; simpa [Nat.toDigitsCore] using h
  | succ fuel ih =>
    intro n ds h
    have hd : '-' ∉ Nat.digitChar (n % 10) :: ds := by
      intro hm
      rcases List.mem_cons.1 hm with hm | hm
      · exact digitChar_ne_dash (Nat.mod_lt n (by decide)) hm.symm
      · exact h hm
    rw [Nat.toDigitsCore]
    split
    · exact hd
    · exact ih _ _ hd

theorem toDigits_injective {a b : Nat} (h : Nat.toDigits 10 a = Nat.toDigits 10 b) : a = b := by
  have ha := readDecimal_toDigitsCore (a + 1) a [] (by omega)
  have hb := readDecimal_toDigitsCore (b + 1) b [] (by omega)
  unfold Nat.toDigits at h
  rw [h, hb] at ha
  simpa [readDecimal] using ha.symm

/-- Two lists that agree after a separator absent from both heads have equal
heads and equal tails. -/
theorem split_at_separator {α : Type} (x : α) :
    ∀ (l₁ l₂ r₁ r₂ : List α), x ∉ l₁ → x ∉ l₂ → l₁ ++ x :: r₁ = l₂ ++ x :: r₂ →
      l₁ = l₂ ∧ r₁ = r₂
  | [], [], _, _, _, _, h => by simpa using h
  | [], b :: l₂, _, _, _, h₂, h => by
    simp only [List.nil_append, List.cons_append, List.cons.injEq] at h
    exact absurd (List.mem_cons.2 (Or.inl h.1)) h₂
  | a :: l₁, [], _, _, h₁, _, h => by
    simp only [List.nil_append, List.cons_append, List.cons.injEq] at h
    exact absurd (List.mem_cons.2 (Or.inl h.1.symm)) h₁
  | a :: l₁, b :: l₂, r₁, r₂, h₁, h₂, h => by
    simp only [List.cons_append, List.cons.injEq] at h
    have := split_at_separator x l₁ l₂ r₁ r₂
      (fun hm => h₁ (List.mem_cons_of_mem _ hm)) (fun hm => h₂ (List.mem_cons_of_mem _ hm)) h.2
    exact ⟨by rw [h.1, this.1], this.2⟩

/-- The key `"%d-%d"` determines the pair it was built from. -/
theorem cartItemKey_injective {c₁ i₁ c₂ i₂ : Nat}
    (h : cartItemKey c₁ i₁ = cartItemKey c₂ i₂) : c₁ = c₂ ∧ i₁ = i₂ := by
  have hd : (cartItemKey c₁ i₁).data = (cartItemKey c₂ i₂).data := by rw [h]
  have hkey : ∀ c i, (cartItemKey c i).data =
      Nat.toDigits 10 c ++ '-' :: Nat.toDigits 10 i := by
    intro c i
    simp [cartItemKey, toString, Nat.repr, List.asString]
  rw [hkey, hkey] at hd
  have := split_at_separator '-' _ _ _ _
    (toDigitsCore_no_dash _ _ [] (by simp)) (toDigitsCore_no_dash _ _ [] (by simp)) hd
  exact ⟨toDigits_injective this.1, toDigits_injective this.2⟩

/-! ## Calls that never answer -/

/-- The handler `CreateUser` with a valid request and a free username takes the write lock
and then waits for it again inside `GetNextID`. -/
theorem CreateUser_blocks {req : UserRequest} {hashedPassword : String} {clock : Nat → Nat}
    {db : InMemoryDB} (hfree : db.Mutex.free)
    (hname : req.Username ≠ "") (hpass : req.Password ≠ "")
    (hnew : ∀ ku ∈ db.Users, ku.2.Username ≠ req.Username) :
    CreateUser req (some hashedPassword) clock db =
      (.blocked, { db with Mutex := { db.Mutex with writer := true } }) := by
  have hlock := RWMutex.Lock_of_free hfree
  have hany : (db.Users.any fun ku => decide (ku.2.Username = req.Username)) = false := by
    rw [List.any_eq_false]
    intro ku hku
    simpa using hnew ku hku
  unfold CreateUser
  rw [if_neg (by simp [hname, hpass]), hlock]
  simp only [hany, Bool.false_eq_true, if_false]
  rw [GetNextID_locked hlock]

/-- The handler `CreateItem` with a valid request takes the write lock and then waits for
it again inside `GetNextID`. -/
theorem CreateItem_blocks {req : ItemRequest} {clock : Nat → Nat} {db : InMemoryDB}
    (hfree : db.Mutex.free) (hname : req.Name ≠ "") :
    CreateItem req clock db =
      (.blocked, { db with Mutex := { db.Mutex with writer := true } }) := by
  have hlock := RWMutex.Lock_of_free hfree
  unfold CreateItem
  rw [if_neg hname]
  simp only [hlock]
  rw [GetNextID_locked hlock]

/-- The handler `CreateOrder` for a user whose active cart has a line takes the write lock
and then waits for it again inside `GetNextID`. -/
theorem CreateOrder_blocks {userID : Nat} {clock : Nat → Nat} {db : InMemoryDB}
    {k : Nat} {cart : Cart} (hfree : db.Mutex.free)
    (hcart : findActiveCart db userID = some (k, cart))
    (hline : cartLines db cart.ID ≠ []) :
    CreateOrder (some userID) clock db =
      (.blocked, { db with Mutex := { db.Mutex with writer := true } }) := by
  have hlock := RWMutex.Lock_of_free hfree
  have hfind : findActiveCart { db with Mutex := { db.Mutex with writer := true } } userID =
      some (k, cart) := hcart
  have hany : (db.CartItems.any fun kv => decide (kv.2.CartID = cart.ID)) = true := by
    obtain ⟨kv, hkv⟩ := List.exists_mem_of_ne_nil _ hline
    rw [List.any_eq_true]
    exact ⟨kv, (List.mem_filter.1 hkv).1, (List.mem_filter.1 hkv).2⟩
  unfold CreateOrder
  simp only [hlock, hfind, hany]
  rw [GetNextID_locked hlock]
  simp

/-! ## Order conversion -/

/-- The loop that looks for the active cart stops at the first active cart of
the user. -/
theorem findActiveCart_eq_head (db : InMemoryDB) (userID : Nat) :
    findActiveCart db userID = (activeCarts db userID).head? := by
  unfold findActiveCart activeCarts
  rw [List.filter_head?]

/-- C2, the code at the failing input.  In `oneLineDB` the active cart of user 9
is cart 10 and it has one line; `CreateOrder` for user 9 does not answer, and
the store it leaves behind has no order. -/
theorem CreateOrder_one_line_no_order :
    (activeCarts oneLineDB 9).map Prod.fst = [10] ∧
    (cartLines oneLineDB 10).length = 1 ∧
    (CreateOrder (some 9) sampleClock oneLineDB).1.status? = none ∧
    (CreateOrder (some 9) sampleClock oneLineDB).2.Orders = [] :=
  ⟨rfl, rfl, rfl, rfl⟩

/-- C3, the code at the failing input.  After `CreateOrder` for user 9 on
`oneLineDB`, which does not answer, cart 10 is still the only cart and still
`"active"`, user 9 still points to it, and no identifier was drawn. -/
theorem CreateOrder_one_line_keeps_cart :
    (CreateOrder (some 9) sampleClock oneLineDB).1.status? = none ∧
    (CreateOrder (some 9) sampleClock oneLineDB).2.Carts.map
      (fun kc => (kc.1, kc.2.UserID, kc.2.Status)) = [(10, 9, "active")] ∧
    (CreateOrder (some 9) sampleClock oneLineDB).2.Users.map
      (fun ku => (ku.1, ku.2.CartID)) = [(9, 10)] ∧
    (CreateOrder (some 9) sampleClock oneLineDB).2.nextID = oneLineDB.nextID ∧
    (CreateOrder (some 9) sampleClock oneLineDB).2.Mutex.writer = true :=
  ⟨rfl, rfl, rfl, rfl, rfl⟩

/-- C4. Started with the mutex free, `CreateOrder` answers 404 when the user has
no active cart and 400 when the user's active cart has no line, and in both
cases the store after the call is the store before it (no order, no cart, no
status change, the same identifier counter). -/
theorem CreateOrder_fails_unchanged (db : InMemoryDB) (hfree : db.Mutex.free)
    (userID : Nat) (clock : Nat → Nat) :
    (activeCarts db userID = [] →
      CreateOrder (some userID) clock db =
        (.responded StatusNotFound (.error "No active cart found"), db)) ∧
    (activeCarts db userID ≠ [] →
      (∀ kc ∈ activeCarts db userID, cartLines db kc.2.ID = []) →
      CreateOrder (some userID) clock db =
        (.responded StatusBadRequest (.error "Cart is empty"), db)) := by
  have hlock := RWMutex.Lock_of_free hfree
  have hfind : findActiveCart { db with Mutex := { db.Mutex with writer := true } } userID =
      findActiveCart db userID := rfl
  have hback := unlock_locked hlock
  constructor
  · intro hnone
    have h0 : findActiveCart db userID = none := by
      rw [findActiveCart_eq_head, hnone]; rfl
    unfold CreateOrder
    simp only [hlock, hfind, h0]
    rw [hback]
  · intro hsome hempty
    obtain ⟨kc, hkc⟩ : ∃ kc, findActiveCart db userID = some kc := by
      rw [findActiveCart_eq_head]
      cases hl : activeCarts db userID with
      | nil => exact absurd hl hsome
      | cons a l => exact ⟨a, rfl⟩
    have hmem : kc ∈ activeCarts db userID := by
      have := hkc
      rw [findActiveCart_eq_head] at this
      exact List.mem_of_mem_head? this
    have hany : (db.CartItems.any fun kv => decide (kv.2.CartID = kc.2.ID)) = false := by
      have := hempty kc hmem
      unfold cartLines at this
      rw [List.filter_eq_nil_iff] at this
      rw [List.any_eq_false]
      exact this
    obtain ⟨k, cart⟩ := kc
    unfold CreateOrder
    simp only [hlock, hfind, hkc, hany]
    simp only [if_true]
    rw [hback]

/-- C4, at the seeded store: user 5 has no cart (404), user 9 has an active
cart without lines (400); the store stays as it was. -/
theorem CreateOrder_fails_unchanged_witness :
    CreateOrder (some 5) sampleClock seededDB =
      (.responded StatusNotFound (.error "No active cart found"), seededDB) ∧
    CreateOrder (some 9) sampleClock seededDB =
      (.responded StatusBadRequest (.error "Cart is empty"), seededDB) :=
  ⟨(CreateOrder_fails_unchanged seededDB ⟨rfl, rfl⟩ 5 sampleClock).1 rfl,
   (CreateOrder_fails_unchanged seededDB ⟨rfl, rfl⟩ 9 sampleClock).2
     (by rw [show activeCarts seededDB 9 = [_] from rfl]; exact List.cons_ne_nil _ _)
     (by
       intro kc hkc
       rw [show activeCarts seededDB 9 = [_] from rfl] at hkc
       rw [List.mem_singleton.1 hkc]
       rfl)⟩

/-! ## Adding to the cart -/

theorem GoMap.mem_keys_of_get {K V : Type} [DecidableEq K] {m : GoMap K V} {k : K} {v : V}
    (h : m.get? k = some v) : k ∈ m.keys := by
  unfold GoMap.get? at h
  cases hf : m.find? (fun kv => decide (kv.1 = k)) with
  | none => rw [hf] at h; cases h
  | some kv =>
    have hk : kv.1 = k := by simpa using List.find?_some hf
    exact List.mem_map.2 ⟨kv, List.mem_of_find?_eq_some hf, hk⟩

/-- The handler `AddToCart` on its success path: the line is appended under its key. -/
theorem AddToCart_created {db : InMemoryDB} {userID k itemID : Nat} {cart : Cart} {item : Item}
    (hfree : db.Mutex.free) (hid : ¬ (itemID = 0 ∨ 2 ^ uintBits ≤ itemID))
    (hcart : findActiveCart db userID = some (k, cart))
    (hitem : db.Items.get? itemID = some item)
    (hkey : db.CartItems.contains (cartItemKey cart.ID itemID) = false) :
    AddToCart (some userID) { ItemID := itemID } db =
      (.responded StatusCreated (.message "Item added to cart successfully"),
       { db with CartItems := db.CartItems ++
          [(cartItemKey cart.ID itemID,
            { CartID := cart.ID, ItemID := itemID, Cart := cart, Item := item })] }) := by
  have hlock := RWMutex.Lock_of_free hfree
  have hfind : findActiveCart { db with Mutex := { db.Mutex with writer := true } } userID =
      some (k, cart) := hcart
  have hu := (RWMutex.Lock_eq_some hlock).2.2
  unfold AddToCart
  simp only [if_neg hid, hlock, hfind, hitem, hkey, Bool.false_eq_true, if_false]
  rw [GoMap.set_of_not_contains _ _ _ hkey, hu]

/-- The handler `AddToCart` when the key of the line is taken: 409, store unchanged. -/
theorem AddToCart_conflict {db : InMemoryDB} {userID k itemID : Nat} {cart : Cart} {item : Item}
    (hfree : db.Mutex.free) (hid : ¬ (itemID = 0 ∨ 2 ^ uintBits ≤ itemID))
    (hcart : findActiveCart db userID = some (k, cart))
    (hitem : db.Items.get? itemID = some item)
    (hkey : db.CartItems.contains (cartItemKey cart.ID itemID) = true) :
    AddToCart (some userID) { ItemID := itemID } db =
      (.responded StatusConflict (.error "Item already in cart"), db) := by
  have hlock := RWMutex.Lock_of_free hfree
  have hfind : findActiveCart { db with Mutex := { db.Mutex with writer := true } } userID =
      some (k, cart) := hcart
  unfold AddToCart
  simp only [if_neg hid, hlock, hfind, hitem, hkey, if_true]
  rw [unlock_locked hlock]

/-- In a store whose lines sit under their own keys, the key of a pair is free
exactly when the pair has no line. -/
theorem contains_key_eq_false {db : InMemoryDB} (hk : KeysMatch db) {cartID itemID : Nat}
    (hnew : linesOf db cartID itemID = []) :
    db.CartItems.contains (cartItemKey cartID itemID) = false := by
  unfold GoMap.contains
  rw [List.any_eq_false]
  intro kv hkv hdec
  have hkey : kv.1 = cartItemKey cartID itemID := by simpa using hdec
  have hpair := cartItemKey_injective ((hk kv hkv).symm.trans hkey)
  have hmem : kv ∈ linesOf db cartID itemID :=
    List.mem_filter.2 ⟨hkv, by simp [hpair.1, hpair.2]⟩
  rw [hnew] at hmem
  cases hmem

/-- The items of a reachable store have the identifiers 1 to 8. -/
theorem Reachable.item_keys {db : InMemoryDB} (h : Reachable db) :
    db.Items.keys = [1, 2, 3, 4, 5, 6, 7, 8] := by
  obtain ⟨⟨p, hs, c, old, db₀, hc, _, hitems, _, _, _⟩, _, _⟩ := h.seeded
  rw [hitems]
  exact (Connect_store hc).2.2.2.1

/-- The key of an item of a reachable store is an `item_id` that binds: it is
not zero and it fits `uint`. -/
theorem item_id_binds {db : InMemoryDB} (h : Reachable db) {itemID : Nat} {item : Item}
    (hitem : db.Items.get? itemID = some item) :
    ¬ (itemID = 0 ∨ 2 ^ uintBits ≤ itemID) := by
  have hmem := GoMap.mem_keys_of_get hitem
  rw [h.item_keys] at hmem
  have h64 : 2 ^ uintBits = 18446744073709551616 := by decide
  rw [h64]
  simp at hmem
  omega

/-- C5. In a reachable store, for a user with an active cart and an existing
item that has no line in that cart, two `AddToCart` calls in sequence answer 201
and then 409; the second leaves the store as the first left it, and exactly one
line for (active cart, item) exists afterwards. -/
theorem AddToCart_twice {db : InMemoryDB} (h : Reachable db)
    {userID k itemID : Nat} {cart : Cart} {item : Item}
    (hcart : findActiveCart db userID = some (k, cart))
    (hitem : db.Items.get? itemID = some item)
    (hnew : linesOf db cart.ID itemID = []) :
    (AddToCart (some userID) { ItemID := itemID } db).1 =
      .responded StatusCreated (.message "Item added to cart successfully") ∧
    (AddToCart (some userID) { ItemID := itemID }
        (AddToCart (some userID) { ItemID := itemID } db).2).1 =
      .responded StatusConflict (.error "Item already in cart") ∧
    (AddToCart (some userID) { ItemID := itemID }
        (AddToCart (some userID) { ItemID := itemID } db).2).2 =
      (AddToCart (some userID) { ItemID := itemID } db).2 ∧
    (linesOf (AddToCart (some userID) { ItemID := itemID }
        (AddToCart (some userID) { ItemID := itemID } db).2).2 cart.ID itemID).length = 1 := by
  obtain ⟨_, hfree, hkeys⟩ := h.seeded
  have hid : ¬ (itemID = 0 ∨ 2 ^ uintBits ≤ itemID) := item_id_binds h hitem
  have hfirst := AddToCart_created hfree hid hcart hitem (contains_key_eq_false hkeys hnew)
  have hsecond := @AddToCart_conflict
    { db with CartItems := db.CartItems ++
      [(cartItemKey cart.ID itemID,
        { CartID := cart.ID, ItemID := itemID, Cart := cart, Item := item })] }
    userID k itemID cart item hfree hid hcart hitem (by simp [GoMap.contains])
  rw [hfirst]
  dsimp only
  rw [hsecond]
  refine ⟨rfl, rfl, rfl, ?_⟩
  simp only [linesOf] at hnew ⊢
  rw [List.filter_append, hnew]
  simp

/-- C5, at the seeded store: user 9 adds item 1 twice. -/
theorem AddToCart_twice_witness :
    (AddToCart (some 9) { ItemID := 1 } seededDB).1.status? = some StatusCreated ∧
    (AddToCart (some 9) { ItemID := 1 } oneLineDB).1.status? = some StatusConflict ∧
    (AddToCart (some 9) { ItemID := 1 } oneLineDB).2 = oneLineDB ∧
    (linesOf oneLineDB 10 1).length = 1 := by
  have h := @AddToCart_twice seededDB seededDB_reachable 9 10 1 _ _
    (show findActiveCart seededDB 9 = some (10, _) from rfl)
    (show seededDB.Items.get? 1 = some _ from rfl) rfl
  refine ⟨?_, ?_, h.2.2.1, rfl⟩
  · rw [h.1]; rfl
  · have h2 := h.2.1
    change (AddToCart (some 9) { ItemID := 1 } oneLineDB).1 = _ at h2
    rw [h2]; rfl

/-- C6, the code at the failing input.  In `discontinuedDB` item 8 has the
status `"discontinued"`; `AddToCart` for user 9 and item 8 answers 201 and the
cart has a line for it afterwards. -/
theorem AddToCart_discontinued_item :
    (discontinuedDB.Items.get? 8).map (fun i => i.Status) = some "discontinued" ∧
    (AddToCart (some 9) { ItemID := 8 } discontinuedDB).1.status? = some StatusCreated ∧
    (linesOf (AddToCart (some 9) { ItemID := 8 } discontinuedDB).2 10 8).length = 1 :=
  ⟨rfl, rfl, rfl⟩

/-! ## Failed calls -/

/-- C7. Whenever `CreateUser` or `AddToCart` answers with an error status, the
store after the call is the store before it: `Users`, `Items`, `Carts`,
`CartItems`, `Orders` and the identifier counter are unchanged. -/
theorem error_response_keeps_store (db db' : InMemoryDB) (status : Nat) (body : Body)
    (herr : 400 ≤ status) :
    (∀ req hashed clock,
      CreateUser req hashed clock db = (.responded status body, db') → db' = db) ∧
    (∀ userID req,
      AddToCart userID req db = (.responded status body, db') → db' = db) := by
  constructor
  · intro req hashed clock h
    exact (CreateUser_responded h).1
  · intro userID req h
    rcases AddToCart_responded h with ⟨hdb, _⟩ | ⟨hst, _⟩
    · exact hdb
    · rw [hst] at herr
      exact absurd herr (by decide)

/-- C7, at the seeded store: `CreateUser` for the taken name `"admin"` answers
409 and `AddToCart` for the missing item 99 answers 404; the store is the seeded
store afterwards. -/
theorem error_response_keeps_store_witness :
    (CreateUser { Username := "admin", Password := "secret" } (some "$2a$10$x") sampleClock
        seededDB).1.status? = some StatusConflict ∧
    (CreateUser { Username := "admin", Password := "secret" } (some "$2a$10$x") sampleClock
        seededDB).2 = seededDB ∧
    (AddToCart (some 9) { ItemID := 99 } seededDB).1.status? = some StatusNotFound ∧
    (AddToCart (some 9) { ItemID := 99 } seededDB).2 = seededDB :=
  ⟨rfl,
   (error_response_keeps_store seededDB _ StatusConflict (.error "User already exists")
      (by decide)).1 { Username := "admin", Password := "secret" } (some "$2a$10$x")
      sampleClock rfl,
   rfl,
   (error_response_keeps_store seededDB _ StatusNotFound (.error "Item not found")
      (by decide)).2 (some 9) { ItemID := 99 } rfl⟩

/-! ## Registration -/

/-- C8, the code at the failing input.  The request of the test "should create a
user successfully", on the seeded store, where no user is called `"testuser"`:
`CreateUser` does not answer, and the store it leaves behind has no new user and
no new cart. -/
theorem CreateUser_test_request_blocks :
    seededDB.Users.map (fun ku => ku.2.Username) = ["admin"] ∧
    (CreateUser testUserRequest (some "$2a$10$test") sampleClock seededDB).1.status? = none ∧
    (CreateUser testUserRequest (some "$2a$10$test") sampleClock seededDB).2.Users.map
      (fun ku => ku.2.Username) = ["admin"] ∧
    (CreateUser testUserRequest (some "$2a$10$test") sampleClock seededDB).2.Carts.map
      Prod.fst = [10] ∧
    (CreateUser testUserRequest (some "$2a$10$test") sampleClock seededDB).2.nextID = 11 :=
  ⟨rfl, rfl, rfl, rfl, rfl⟩

/-- The handler `CreateUser` for a taken name: 409, store unchanged. -/
theorem CreateUser_conflict {req : UserRequest} {hashed : Option String} {clock : Nat → Nat}
    {db : InMemoryDB} (hfree : db.Mutex.free)
    (hname : req.Username ≠ "") (hpass : req.Password ≠ "")
    (htaken : ∃ ku ∈ db.Users, ku.2.Username = req.Username) :
    CreateUser req hashed clock db =
      (.responded StatusConflict (.error "User already exists"), db) := by
  have hlock := RWMutex.Lock_of_free hfree
  have hany : (db.Users.any fun ku => decide (ku.2.Username = req.Username)) = true := by
    rw [List.any_eq_true]
    obtain ⟨ku, hku, hn⟩ := htaken
    exact ⟨ku, hku, by simpa using hn⟩
  unfold CreateUser
  rw [if_neg (by simp [hname, hpass]), hlock]
  simp only [hany, if_true]
  rw [unlock_locked hlock]

/-- The users of a reachable store: none, or the administrator alone. -/
theorem Reachable.users {db : InMemoryDB} (h : Reachable db) :
    db.Users.map (fun ku => ku.2.Username) = [] ∨
    db.Users.map (fun ku => ku.2.Username) = ["admin"] := by
  obtain ⟨⟨p, hs, c, old, db₀, hc, husers, _, _, _, _⟩, _, _⟩ := h.seeded
  rw [husers]
  rcases (Connect_store hc).2.2.2.2 with ⟨_, h0, _, _⟩ | ⟨_, _, h0, _, _⟩
  · left; rw [h0]; rfl
  · right; rw [h0]; rfl

/-- C9. In every reachable store no two users have the same `Username`.  A
`CreateUser` call with a name that is taken never adds a user, and when the
request binds (it carries a password) the call answers 409 and leaves the store
as it was. -/
theorem usernames_unique {db : InMemoryDB} (h : Reachable db) :
    (db.Users.map (fun ku => ku.2.Username)).Nodup ∧
    ∀ (req : UserRequest) (hashed : Option String) (clock : Nat → Nat),
      (∃ ku ∈ db.Users, ku.2.Username = req.Username) →
      (CreateUser req hashed clock db).2.Users = db.Users ∧
      (req.Password ≠ "" →
        CreateUser req hashed clock db =
          (.responded StatusConflict (.error "User already exists"), db)) := by
  constructor
  · rcases h.users with h0 | h0 <;> rw [h0] <;> simp
  · intro req hashed clock htaken
    have hname : req.Username ≠ "" := by
      obtain ⟨ku, hku, hn⟩ := htaken
      have hmem : req.Username ∈ db.Users.map (fun ku => ku.2.Username) :=
        List.mem_map.2 ⟨ku, hku, hn⟩
      rcases h.users with h0 | h0 <;> rw [h0] at hmem
      · cases hmem
      · rw [List.mem_singleton.1 hmem]; decide
    have hconf : req.Password ≠ "" →
        CreateUser req hashed clock db =
          (.responded StatusConflict (.error "User already exists"), db) :=
      fun hpass => CreateUser_conflict h.seeded.2.1 hname hpass htaken
    refine ⟨?_, hconf⟩
    by_cases hpass : req.Password = ""
    · unfold CreateUser
      rw [if_pos (Or.inr hpass)]
    · rw [hconf hpass]

/-- C9, at the seeded store: the only user is `"admin"`, and registering
`"admin"` again answers 409 without a second user. -/
theorem usernames_unique_witness :
    (seededDB.Users.map (fun ku => ku.2.Username)).Nodup ∧
    CreateUser { Username := "admin", Password := "Admin@123" } (some "$2a$10$y") sampleClock
        seededDB =
      (.responded StatusConflict (.error "User already exists"), seededDB) :=
  ⟨(usernames_unique seededDB_reachable).1,
   ((usernames_unique seededDB_reachable).2 _ _ _
     ⟨_, List.mem_of_mem_head? (show seededDB.Users.head? = some _ from rfl), rfl⟩).2
     (by decide)⟩

/-! ## The identity sequencer -/

/-- The call `GetNextID` with the mutex free: returns the counter and advances it. -/
theorem GetNextID_of_free {db : InMemoryDB} (hfree : db.Mutex.free) :
    GetNextID db = some (db.nextID, { db with nextID := (db.nextID + 1) % 2 ^ uintBits }) := by
  have hlock := RWMutex.Lock_of_free hfree
  have hu := (RWMutex.Lock_eq_some hlock).2.2
  unfold GetNextID
  rw [hlock]
  simp only [hu]

/-- What the sequencer maintains: the mutex is free between calls, every key of
`Users`, `Items`, `Carts` and `Orders` is an issued identifier, and as long as
the counter has not run through the range of `uint` the issued identifiers are
below the counter, which is their number plus one. -/
theorem Issued.inv {db : InMemoryDB} {ids : List Nat} (h : Issued db ids) :
    db.Mutex.free ∧
    (∀ k, k ∈ db.Users.keys ∨ k ∈ db.Items.keys ∨ k ∈ db.Carts.keys ∨ k ∈ db.Orders.keys →
      k ∈ ids) ∧
    (ids.length + 1 < 2 ^ uintBits →
      db.nextID = ids.length + 1 ∧ ∀ j ∈ ids, j < db.nextID) := by
  induction h with
  | connect db hc =>
    obtain ⟨p, hs, c, old, hc⟩ := hc
    obtain ⟨hm, _, ho, hi, hrest⟩ := Connect_store hc
    refine ⟨by rw [hm]; exact ⟨rfl, rfl⟩, ?_, ?_⟩
    · intro k hk
      unfold seedIssued
      simp only [List.mem_append, List.mem_reverse]
      rcases hk with hk | hk | hk | hk
      · exact Or.inl (Or.inr hk)
      · exact Or.inr hk
      · exact Or.inl (Or.inl hk)
      · rw [ho] at hk; cases hk
    · intro _
      unfold seedIssued
      rcases hrest with ⟨_, hu, hcs, hn⟩ | ⟨_, _, hu, hcs, hn⟩
      · rw [hi, hu, hcs, hn]
        refine ⟨rfl, ?_⟩
        intro j hj
        simp [GoMap.keys] at hj
        omega
      · rw [hi, hu, hcs, hn]
        refine ⟨rfl, ?_⟩
        intro j hj
        simp [GoMap.keys] at hj
        omega
  | getNextID db db' id ids _ hstep ih =>
    obtain ⟨hfree, hkeys, hcount⟩ := ih
    rw [GetNextID_of_free hfree] at hstep
    simp only [Option.some.injEq, Prod.mk.injEq] at hstep
    obtain ⟨hid, hdb⟩ := hstep
    subst hdb
    subst hid
    refine ⟨hfree, fun k hk => List.mem_cons_of_mem _ (hkeys k hk), ?_⟩
    intro hlen
    simp only [List.length_cons] at hlen
    obtain ⟨hn, hlt⟩ := hcount (by omega)
    have hmod : (db.nextID + 1) % 2 ^ uintBits = db.nextID + 1 :=
      Nat.mod_eq_of_lt (by omega)
    simp only [List.length_cons, hmod]
    refine ⟨by omega, ?_⟩
    intro j hj
    rcases List.mem_cons.1 hj with hj | hj
    · omega
    · have := hlt j hj
      omega
  | createUser db db' ids _ hstep ih =>
    obtain ⟨req, hs, c, st, b, hstep⟩ := hstep
    rw [(CreateUser_responded hstep).1]
    exact ih
  | createItem db db' ids _ hstep ih =>
    obtain ⟨req, c, st, b, hstep⟩ := hstep
    rw [(CreateItem_responded hstep).1]
    exact ih
  | createOrder db db' ids _ hstep ih =>
    obtain ⟨u, c, st, b, hstep⟩ := hstep
    rw [(CreateOrder_responded hstep).1]
    exact ih
  | addToCart db db' ids _ hstep ih =>
    obtain ⟨u, req, st, b, hstep⟩ := hstep
    rcases AddToCart_responded hstep with ⟨rfl, _⟩ | ⟨_, _, _, u', k, cart, item, _, _, _, _, rfl⟩
    · exact ih
    · exact ih

theorem seededDB_issued : Issued seededDB (seedIssued seededDB) :=
  Issued.connect _ ⟨true, some "$2a$10$seed", sampleClock, none, rfl⟩

/-- From the seeded store, `n` calls of `GetNextID` move the counter `n` steps
round the range of `uint`; the identifier 1 stays in the log. -/
theorem seededDB_advance (n : Nat) :
    ∃ ids, Issued { seededDB with nextID := (11 + n) % 2 ^ uintBits } ids ∧ 1 ∈ ids := by
  induction n with
  | zero => exact ⟨_, seededDB_issued, by decide⟩
  | succ n ih =>
    obtain ⟨ids, hids, h1⟩ := ih
    refine ⟨(11 + n) % 2 ^ uintBits :: ids, Issued.getNextID _ _ _ _ hids ?_,
      List.mem_cons_of_mem _ h1⟩
    rw [GetNextID_of_free ⟨rfl, rfl⟩]
    have hpow : 2 ^ uintBits = 18446744073709551616 := by decide
    have hmod : ((11 + n) % 2 ^ uintBits + 1) % 2 ^ uintBits =
        (11 + (n + 1)) % 2 ^ uintBits := by
      rw [hpow]; omega
    simp only [hmod]

/-- C10, counterexample.  The store `wrappedDB` is reachable from `Connect` by
calls of `GetNextID`, the identifier 1 has been returned on the way, and the
next call returns 0: not positive, and not greater than the earlier 1. -/
theorem GetNextID_wraps_to_zero :
    ∃ ids, Issued wrappedDB ids ∧ 1 ∈ ids ∧
      (GetNextID wrappedDB).map Prod.fst = some 0 := by
  obtain ⟨ids, hids, h1⟩ := seededDB_advance (2 ^ uintBits - 11)
  have h0 : (11 + (2 ^ uintBits - 11)) % 2 ^ uintBits = 0 := by decide
  rw [h0] at hids
  exact ⟨ids, hids, h1, rfl⟩

/-- C10, amended.  In every store reachable from `Connect` by calls of
`GetNextID` and of the handlers, as long as fewer than `2 ^ 64 - 1` identifiers
have been issued, `GetNextID` returns a positive value that is greater than
every value returned earlier and is not a key of `Users`, `Items`, `Carts` or
`Orders`, and the counter afterwards is that value plus one in `uint`
arithmetic. -/
theorem GetNextID_fresh {db : InMemoryDB} {ids : List Nat} (h : Issued db ids)
    (hroom : ids.length + 1 < 2 ^ uintBits) :
    ∃ id db', GetNextID db = some (id, db') ∧ 0 < id ∧ (∀ j ∈ ids, j < id) ∧
      id ∉ db.Users.keys ∧ id ∉ db.Items.keys ∧ id ∉ db.Carts.keys ∧ id ∉ db.Orders.keys ∧
      db'.nextID = (id + 1) % 2 ^ uintBits := by
  obtain ⟨hfree, hkeys, hcount⟩ := h.inv
  obtain ⟨hn, hlt⟩ := hcount hroom
  have hfresh : ∀ k, k ∈ ids → k ≠ db.nextID := fun k hk he => by
    have := hlt k hk
    omega
  refine ⟨db.nextID, _, GetNextID_of_free hfree, by omega, hlt, ?_, ?_, ?_, ?_, rfl⟩
  · exact fun hk => hfresh _ (hkeys _ (Or.inl hk)) rfl
  · exact fun hk => hfresh _ (hkeys _ (Or.inr (Or.inl hk))) rfl
  · exact fun hk => hfresh _ (hkeys _ (Or.inr (Or.inr (Or.inl hk)))) rfl
  · exact fun hk => hfresh _ (hkeys _ (Or.inr (Or.inr (Or.inr hk)))) rfl

/-- C10 amended, at the seeded store: ten identifiers are out, and the next one
is 11. -/
theorem GetNextID_fresh_witness :
    (seedIssued seededDB).length + 1 < 2 ^ uintBits ∧
    ∃ id db', GetNextID seededDB = some (id, db') ∧ 0 < id ∧
      (∀ j ∈ seedIssued seededDB, j < id) ∧
      id ∉ seededDB.Users.keys ∧ id ∉ seededDB.Items.keys ∧ id ∉ seededDB.Carts.keys ∧
      id ∉ seededDB.Orders.keys ∧
      db'.nextID = (id + 1) % 2 ^ uintBits :=
  ⟨by decide, GetNextID_fresh seededDB_issued (by decide)⟩

/-! ## Reentrant locking -/

/-- C11, the code at the failing inputs.  Started with the mutex free, each of
`CreateUser` (a new user name), `CreateItem` (a named item) and `CreateOrder` (a
cart with a line) stops at the `Lock` inside `GetNextID` while it holds the
write lock itself: none of them answers, and the write lock stays taken. -/
theorem handlers_stop_inside_GetNextID :
    seededDB.Mutex.free ∧ oneLineDB.Mutex.free ∧
    CreateUser aliceRequest (some "$2a$10$alice") sampleClock seededDB =
      (.blocked, { seededDB with Mutex := { writer := true, readers := 0 } }) ∧
    CreateItem { Name := "Pen", Status := "" } sampleClock seededDB =
      (.blocked, { seededDB with Mutex := { writer := true, readers := 0 } }) ∧
    CreateOrder (some 9) sampleClock oneLineDB =
      (.blocked, { oneLineDB with Mutex := { writer := true, readers := 0 } }) ∧
    GetNextID { seededDB with Mutex := { writer := true, readers := 0 } } = none :=
  ⟨⟨rfl, rfl⟩, ⟨rfl, rfl⟩, rfl, rfl, rfl, rfl⟩

/-- C12, the code at the failing input.  On the store produced by `Connect`, the
first step of the scenario, `CreateUser` for `"alice"`, does not answer: alice is
not among the users, no cart was made for her, and with the write lock left
taken the next step, `AddToCart` for the identifier alice would have received
(11) and the Laptop (item 1), does not answer either. -/
theorem scenario_alice_stops_at_registration :
    (CreateUser aliceRequest (some "$2a$10$alice") sampleClock seededDB).1.status? = none ∧
    (CreateUser aliceRequest (some "$2a$10$alice") sampleClock seededDB).2.Users.map
      (fun ku => ku.2.Username) = ["admin"] ∧
    (CreateUser aliceRequest (some "$2a$10$alice") sampleClock seededDB).2.Carts.map
      (fun kc => kc.2.UserID) = [9] ∧
    (AddToCart (some 11) { ItemID := 1 }
      (CreateUser aliceRequest (some "$2a$10$alice") sampleClock seededDB).2).1.status? = none ∧
    (CreateOrder (some 11) sampleClock
      (CreateUser aliceRequest (some "$2a$10$alice") sampleClock seededDB).2).1.status? = none :=
  ⟨rfl, rfl, rfl, rfl, rfl⟩

/-! ## The seed -/

/-- With one loop variable for the whole loop of `seedItems` (Go before 1.22),
every key of `Items` holds the last item of the catalog. -/
theorem Connect_shared_loop_variable (hashed : Option String) (clock : Nat → Nat)
    (old : Option InMemoryDB) :
    ∃ db, Connect false hashed clock old = some db ∧
      db.Items.map (fun ki => (ki.1, ki.2.ID, ki.2.Name)) =
        [(1, 8, "Webcam"), (2, 8, "Webcam"), (3, 8, "Webcam"), (4, 8, "Webcam"),
         (5, 8, "Webcam"), (6, 8, "Webcam"), (7, 8, "Webcam"), (8, 8, "Webcam")] := by
  cases hashed <;> exact ⟨_, rfl, rfl⟩

/-- C13, counterexample.  When hashing the administrator password fails,
`seedAdminUser` returns early: the store `Connect` produces has no user and no
cart, and its next identifier is 9. -/
theorem Connect_without_admin :
    ∃ db, Connect true none sampleClock none = some db ∧
      db.Users.length = 0 ∧ db.Carts.length = 0 ∧ db.nextID = 9 :=
  ⟨_, rfl, rfl, rfl, rfl⟩

/-- C13, amended.  Whenever hashing the administrator password succeeds,
`Connect` produces the same seed whatever the previous store and the clock:
`Items` has exactly the keys 1 to 8, every item is `"active"`, and with a loop
variable per iteration the entry under key `k` has `ID` `k` and the `k`-th
catalog name; `Users` has exactly the user `"admin"` with `ID` 9 and `CartID`
10; cart 10 is `"active"` and owned by user 9; `CartItems` and `Orders` are
empty; the next identifier is 11. -/
theorem Connect_seed (perIteration : Bool) (hashedPassword : String) (clock : Nat → Nat)
    (old : Option InMemoryDB) :
    ∃ db, Connect perIteration (some hashedPassword) clock old = some db ∧
      db.Items.map (fun ki => (ki.1, ki.2.Status)) =
        [(1, "active"), (2, "active"), (3, "active"), (4, "active"),
         (5, "active"), (6, "active"), (7, "active"), (8, "active")] ∧
      (perIteration = true →
        db.Items.map (fun ki => (ki.1, ki.2.ID, ki.2.Name)) =
          [(1, 1, "Laptop"), (2, 2, "Smartphone"), (3, 3, "Headphones"), (4, 4, "Keyboard"),
           (5, 5, "Mouse"), (6, 6, "Monitor"), (7, 7, "Tablet"), (8, 8, "Webcam")]) ∧
      db.Users.map (fun ku => (ku.1, ku.2.ID, ku.2.Username, ku.2.Password, ku.2.CartID)) =
        [(9, 9, "admin", hashedPassword, 10)] ∧
      db.Carts.map (fun kc => (kc.1, kc.2.ID, kc.2.UserID, kc.2.Status, kc.2.CartItems.length)) =
        [(10, 10, 9, "active", 0)] ∧
      db.CartItems.length = 0 ∧ db.Orders.length = 0 ∧ db.nextID = 11 ∧
      db.Mutex.free := by
  cases perIteration
  · exact ⟨_, rfl, rfl, fun h => absurd h (by decide), rfl, rfl, rfl, rfl, rfl, rfl, rfl⟩
  · exact ⟨_, rfl, rfl, fun _ => rfl, rfl, rfl, rfl, rfl, rfl, rfl, rfl⟩

/-- C13 amended, for the sample seed: the seeded store has the catalog under the
keys 1 to 8. -/
theorem Connect_seed_witness :
    ∃ db, Connect true (some "$2a$10$seed") sampleClock none = some db ∧
      db.Items.map (fun ki => (ki.1, ki.2.ID, ki.2.Name)) =
        [(1, 1, "Laptop"), (2, 2, "Smartphone"), (3, 3, "Headphones"), (4, 4, "Keyboard"),
         (5, 5, "Mouse"), (6, 6, "Monitor"), (7, 7, "Tablet"), (8, 8, "Webcam")] ∧
      db.nextID = 11 := by
  obtain ⟨db, hdb, _, hitems, _, _, _, _, hnext, _⟩ :=
    Connect_seed true "$2a$10$seed" sampleClock none
  exact ⟨db, hdb, hitems rfl, hnext⟩

/-! ## Registration with a missing field -/

/-- C20. A `CreateUser` request whose username or password is empty is answered
with 400, and the store after the call is the store before it: no user, no
cart, no identifier. -/
theorem CreateUser_missing_field (req : UserRequest) (hashed : Option String)
    (clock : Nat → Nat) (db : InMemoryDB) (hmissing : req.Username = "" ∨ req.Password = "") :
    (CreateUser req hashed clock db).1.status? = some StatusBadRequest ∧
    (CreateUser req hashed clock db).2 = db := by
  unfold CreateUser
  rw [if_pos hmissing]
  exact ⟨rfl, rfl⟩

/-- C20, for the request of the test "with missing data": a username and no
password. -/
theorem CreateUser_missing_field_witness :
    (CreateUser { Username := "testuser", Password := "" } (some "$2a$10$t") sampleClock
        seededDB).1.status? = some StatusBadRequest ∧
    (CreateUser { Username := "testuser", Password := "" } (some "$2a$10$t") sampleClock
        seededDB).2 = seededDB :=
  CreateUser_missing_field { Username := "testuser", Password := "" } (some "$2a$10$t")
    sampleClock seededDB (Or.inr rfl)

/-! ## What any call leaves behind -/

/-- Whatever `CreateUser` does, it leaves the store as it was up to the mutex. -/
theorem CreateUser_store (req : UserRequest) (hashed : Option String) (clock : Nat → Nat)
    (db : InMemoryDB) :
    ∃ m, (CreateUser req hashed clock db).2 = { db with Mutex := m } := by
  rcases h : CreateUser req hashed clock db with ⟨o, db'⟩
  cases o with
  | responded status body => exact ⟨db.Mutex, (CreateUser_responded h).1⟩
  | blocked =>
    unfold CreateUser at h
    split at h
    · simp at h
    · split at h
      · simp only [Prod.mk.injEq, true_and] at h
        exact ⟨db.Mutex, h.symm⟩
      · rename_i m hm
        simp only at h
        split at h
        · simp at h
        · split at h
          · simp at h
          · rw [GetNextID_locked hm] at h
            simp only [Prod.mk.injEq, true_and] at h
            exact ⟨m, h.symm⟩

/-- Whatever `CreateItem` does, it leaves the store as it was up to the mutex. -/
theorem CreateItem_store (req : ItemRequest) (clock : Nat → Nat) (db : InMemoryDB) :
    ∃ m, (CreateItem req clock db).2 = { db with Mutex := m } := by
  rcases h : CreateItem req clock db with ⟨o, db'⟩
  cases o with
  | responded status body => exact ⟨db.Mutex, (CreateItem_responded h).1⟩
  | blocked =>
    unfold CreateItem at h
    split at h
    · simp at h
    · simp only at h
      split at h
      · simp only [Prod.mk.injEq, true_and] at h
        exact ⟨db.Mutex, h.symm⟩
      · rename_i m hm
        rw [GetNextID_locked hm] at h
        simp only [Prod.mk.injEq, true_and] at h
        exact ⟨m, h.symm⟩

/-- Whatever `CreateOrder` does, it leaves the store as it was up to the mutex. -/
theorem CreateOrder_store (userID : Option Nat) (clock : Nat → Nat) (db : InMemoryDB) :
    ∃ m, (CreateOrder userID clock db).2 = { db with Mutex := m } := by
  rcases h : CreateOrder userID clock db with ⟨o, db'⟩
  cases o with
  | responded status body => exact ⟨db.Mutex, (CreateOrder_responded h).1⟩
  | blocked =>
    unfold CreateOrder at h
    split at h
    · simp at h
    · split at h
      · simp only [Prod.mk.injEq, true_and] at h
        exact ⟨db.Mutex, h.symm⟩
      · rename_i m hm
        simp only at h
        split at h
        · simp at h
        · split at h
          · simp at h
          · rw [GetNextID_locked hm] at h
            simp only [Prod.mk.injEq, true_and] at h
            exact ⟨m, h.symm⟩

/-- A blocked `AddToCart` has not touched the store. -/
theorem AddToCart_blocked {userID : Option Nat} {req : AddToCartRequest}
    {db db' : InMemoryDB} (h : AddToCart userID req db = (.blocked, db')) : db' = db := by
  unfold AddToCart at h
  split at h
  · simp at h
  · split at h
    · simp at h
    · split at h
      · simp only [Prod.mk.injEq, true_and] at h
        exact h.symm
      · simp only at h
        split at h
        · simp at h
        · split at h
          · simp at h
          · split at h
            · simp at h
            · simp at h

/-- Whatever `AddToCart` does, it either leaves the store as it was, or it
answers 201 and has appended one line, for a cart that the loop over `Carts`
found `"active"` and owned by the user. -/
theorem AddToCart_store (userID : Option Nat) (req : AddToCartRequest) (db : InMemoryDB) :
    (AddToCart userID req db).2 = db ∨
    ∃ k cart item, (k, cart) ∈ db.Carts ∧ cart.Status = "active" ∧
      (AddToCart userID req db).1.status? = some StatusCreated ∧
      (AddToCart userID req db).2 = { db with CartItems := db.CartItems ++
        [(cartItemKey cart.ID req.ItemID,
          { CartID := cart.ID, ItemID := req.ItemID, Cart := cart, Item := item })] } := by
  rcases h : AddToCart userID req db with ⟨o, db'⟩
  cases o with
  | blocked => exact Or.inl (AddToCart_blocked h)
  | responded status body =>
    rcases AddToCart_responded h with ⟨hdb, _⟩ | ⟨hst, _, _, u, k, cart, item, _, hcart, _, _, hdb⟩
    · exact Or.inl hdb
    · refine Or.inr ⟨k, cart, item, List.mem_of_find?_eq_some hcart, ?_, ?_, hdb⟩
      · have := List.find?_some hcart
        simp only [Bool.and_eq_true, decide_eq_true_eq] at this
        exact this.2
      · rw [hst]; rfl

/-! ## Frozen carts and referential integrity -/

theorem GoMap.contains_of_mem {K V : Type} [DecidableEq K] {m : GoMap K V} {k : K} {v : V}
    (h : (k, v) ∈ m) : m.contains k = true := by
  unfold GoMap.contains
  rw [List.any_eq_true]
  exact ⟨(k, v), h, by simp⟩

theorem GoMap.contains_of_get {K V : Type} [DecidableEq K] {m : GoMap K V} {k : K} {v : V}
    (h : m.get? k = some v) : m.contains k = true := by
  unfold GoMap.get? at h
  cases hf : m.find? (fun kv => decide (kv.1 = k)) with
  | none => rw [hf] at h; cases h
  | some kv =>
    unfold GoMap.contains
    rw [List.any_eq_true]
    have hp := List.find?_some hf
    exact ⟨kv, List.mem_of_find?_eq_some hf, hp⟩

/-- In a map with one entry per key, a key has one value. -/
theorem GoMap.entry_unique {K V : Type} [DecidableEq K] {m : GoMap K V}
    (hnodup : m.keys.Nodup) {a b : K × V} (ha : a ∈ m) (hb : b ∈ m) (hk : a.1 = b.1) :
    a = b :=
  List.inj_on_of_nodup_map hnodup ha hb hk

/-- The carts of a reachable store sit under their own identifiers. -/
theorem Reachable.cartsKeyed {db : InMemoryDB} (h : Reachable db) : CartsKeyed db := by
  obtain ⟨⟨p, hs, c, old, db₀, hc, _, _, hcarts, _, _⟩, _, _⟩ := h.seeded
  unfold CartsKeyed
  rw [hcarts]
  rcases (Connect_store hc).2.2.2.2 with ⟨_, _, h0, _⟩ | ⟨_, _, _, h0, _⟩
  · rw [h0]
    exact ⟨List.nodup_nil, fun kc hkc => by cases hkc⟩
  · rw [h0]
    refine ⟨by simp [GoMap.keys], fun kc hkc => ?_⟩
    rw [List.mem_singleton.1 hkc]

/-- C14. For every store whose carts sit under their own identifiers (every
reachable store is one) and every call of `CreateUser`, `CreateItem`,
`AddToCart` or `CreateOrder` on it: a cart that is `"ordered"` before the call
is in `Carts` unchanged afterwards and has the same cart lines, `Orders` is
unchanged, and a cart line that is new after the call belongs to a cart that
was `"active"` before it. -/
theorem ordered_cart_frozen (db db' : InMemoryDB) (hkeyed : CartsKeyed db ∨ Reachable db)
    (hcall : CallResult db db') :
    (∀ kc ∈ db.Carts, kc.2.Status = "ordered" →
      kc ∈ db'.Carts ∧ cartLines db' kc.2.ID = cartLines db kc.2.ID) ∧
    db'.Orders = db.Orders ∧
    (∀ kv ∈ db'.CartItems, kv ∉ db.CartItems →
      ∃ kc ∈ db.Carts, kc.2.Status = "active" ∧ kv.2.CartID = kc.2.ID) := by
  have hkeyed' : CartsKeyed db := by
    rcases hkeyed with h | h
    · exact h
    · exact h.cartsKeyed
  have hsame : ∀ m : RWMutex, db' = { db with Mutex := m } →
      (∀ kc ∈ db.Carts, kc.2.Status = "ordered" →
        kc ∈ db'.Carts ∧ cartLines db' kc.2.ID = cartLines db kc.2.ID) ∧
      db'.Orders = db.Orders ∧
      (∀ kv ∈ db'.CartItems, kv ∉ db.CartItems →
        ∃ kc ∈ db.Carts, kc.2.Status = "active" ∧ kv.2.CartID = kc.2.ID) := by
    intro m hm
    subst hm
    exact ⟨fun kc hkc _ => ⟨hkc, rfl⟩, rfl, fun kv hkv hnot => absurd hkv hnot⟩
  rcases hcall with ⟨req, hs, c, h⟩ | ⟨req, c, h⟩ | ⟨u, req, h⟩ | ⟨u, c, h⟩
  · obtain ⟨m, hm⟩ := CreateUser_store req hs c db
    exact hsame m (h.symm.trans hm)
  · obtain ⟨m, hm⟩ := CreateItem_store req c db
    exact hsame m (h.symm.trans hm)
  · rcases AddToCart_store u req db with hdb | ⟨k, cart, item, hmem, hact, _, hdb⟩
    · exact hsame db.Mutex (h.symm.trans hdb)
    · have hdb' := h.symm.trans hdb
      subst hdb'
      refine ⟨fun kc hkc hord => ⟨hkc, ?_⟩, rfl, ?_⟩
      · have hne : cart.ID ≠ kc.2.ID := by
          intro hid
          have hk : (k, cart).1 = kc.1 := by
            have h1 := hkeyed'.2 (k, cart) hmem
            have h2 := hkeyed'.2 kc hkc
            simp only at h1
            rw [← h1, ← h2, hid]
          have heq := GoMap.entry_unique hkeyed'.1 hmem hkc hk
          rw [← heq] at hord
          simp only at hord
          rw [hact] at hord
          exact absurd hord (by decide)
        simp only [cartLines]
        rw [List.filter_append]
        simp [hne]
      · intro kv hkv hnot
        rcases List.mem_append.1 hkv with hold | hnew
        · exact absurd hold hnot
        · rw [List.mem_singleton.1 hnew]
          exact ⟨(k, cart), hmem, hact, rfl⟩
  · obtain ⟨m, hm⟩ := CreateOrder_store u c db
    exact hsame m (h.symm.trans hm)

/-- C14, for the store `orderedDB` and the call `AddToCart` of user 9 for item
2: the ordered cart 10 keeps its line and the new line belongs to the active
cart 12. -/
theorem ordered_cart_frozen_witness :
    CartsKeyed orderedDB ∧ CallResult orderedDB twoCartsDB ∧
    (cartLines twoCartsDB 10).map Prod.fst = ["10-1"] ∧
    twoCartsDB.CartItems.map Prod.fst = ["10-1", "12-2"] ∧
    ((∀ kc ∈ orderedDB.Carts, kc.2.Status = "ordered" →
      kc ∈ twoCartsDB.Carts ∧ cartLines twoCartsDB kc.2.ID = cartLines orderedDB kc.2.ID) ∧
     twoCartsDB.Orders = orderedDB.Orders ∧
     (∀ kv ∈ twoCartsDB.CartItems, kv ∉ orderedDB.CartItems →
      ∃ kc ∈ orderedDB.Carts, kc.2.Status = "active" ∧ kv.2.CartID = kc.2.ID)) := by
  have hkeyed : CartsKeyed orderedDB := by
    refine ⟨by decide, ?_⟩
    intro kc hkc
    rw [show orderedDB.Carts = [_, _] from rfl] at hkc
    simp only [List.mem_cons, List.mem_singleton, List.not_mem_nil, or_false] at hkc
    rcases hkc with rfl | rfl <;> rfl
  have hcall : CallResult orderedDB twoCartsDB :=
    Or.inr (Or.inr (Or.inl ⟨some 9, { ItemID := 2 }, rfl⟩))
  exact ⟨hkeyed, hcall, by decide, by decide,
    ordered_cart_frozen orderedDB twoCartsDB (Or.inl hkeyed) hcall⟩

/-- What a reachable store maintains about its cart lines: each refers to a
cart of `Carts` and an item of `Items`, sits under its own key, and carries the
item as `Items` has it. -/
theorem Reachable.lines {db : InMemoryDB} (h : Reachable db) :
    ∀ kv ∈ db.CartItems, LineRefers db kv ∧ db.Items.get? kv.2.ItemID = some kv.2.Item := by
  induction h with
  | connect db hc =>
    obtain ⟨p, hs, c, old, hc⟩ := hc
    intro kv hkv
    rw [(Connect_store hc).2.1] at hkv
    cases hkv
  | createUser db db' _ hstep ih =>
    obtain ⟨req, hs, c, st, b, hstep⟩ := hstep
    rw [(CreateUser_responded hstep).1]
    exact ih
  | createItem db db' _ hstep ih =>
    obtain ⟨req, c, st, b, hstep⟩ := hstep
    rw [(CreateItem_responded hstep).1]
    exact ih
  | createOrder db db' _ hstep ih =>
    obtain ⟨u, c, st, b, hstep⟩ := hstep
    rw [(CreateOrder_responded hstep).1]
    exact ih
  | addToCart db db' hreach hstep ih =>
    obtain ⟨u, req, st, b, hstep⟩ := hstep
    rcases AddToCart_responded hstep with
      ⟨rfl, _⟩ | ⟨_, _, _, u', k, cart, item, _, hcart, hitem, _, rfl⟩
    · exact ih
    · intro kv hkv
      rcases List.mem_append.1 hkv with hold | hnew
      · exact ih kv hold
      · rw [List.mem_singleton.1 hnew]
        have hmem : (k, cart) ∈ db.Carts := List.mem_of_find?_eq_some hcart
        have hid : cart.ID = k := hreach.cartsKeyed.2 (k, cart) hmem
        refine ⟨⟨?_, GoMap.contains_of_get hitem, rfl⟩, hitem⟩
        show db.Carts.contains cart.ID = true
        rw [hid]
        exact GoMap.contains_of_mem hmem

/-- C15. In every store reachable from `Connect` by the operations of
`handlers.go`, every entry of `CartItems` refers to a cart that is in `Carts`
and to an item that is in `Items`, and is stored under the key built from its
own `(CartID, ItemID)` pair. -/
theorem cart_lines_refer {db : InMemoryDB} (h : Reachable db) :
    ∀ kv ∈ db.CartItems, LineRefers db kv :=
  fun kv hkv => (h.lines kv hkv).1

/-- C15, at the store with one line: the line `"10-1"` refers to cart 10 and
item 1. -/
theorem cart_lines_refer_witness :
    Reachable oneLineDB ∧ oneLineDB.CartItems.map Prod.fst = ["10-1"] ∧
    ∀ kv ∈ oneLineDB.CartItems, LineRefers oneLineDB kv :=
  ⟨oneLineDB_reachable, by decide, cart_lines_refer oneLineDB_reachable⟩

/-! ## Reading the cart -/

/-- A reachable store has at most one cart. -/
theorem Reachable.carts_length {db : InMemoryDB} (h : Reachable db) : db.Carts.length ≤ 1 := by
  obtain ⟨⟨p, hs, c, old, db₀, hc, _, _, hcarts, _, _⟩, _, _⟩ := h.seeded
  rw [hcarts]
  rcases (Connect_store hc).2.2.2.2 with ⟨_, _, h0, _⟩ | ⟨_, _, _, h0, _⟩ <;> simp [h0]

theorem runlock_rlocked {db : InMemoryDB} {m : RWMutex} (h : db.Mutex.RLock = some m) :
    { db with Mutex := m.RUnlock } = db := by
  unfold RWMutex.RLock at h
  split at h
  · cases h
    cases db
    simp [RWMutex.RUnlock]
  · cases h

theorem RWMutex.RLock_of_free {m : RWMutex} (h : m.free) :
    m.RLock = some { m with readers := m.readers + 1 } := by
  unfold RWMutex.RLock
  rw [if_pos h.1]

/-- C17. In every reachable store, `GetUserCart` answers 404 when the user has
no active cart; otherwise it answers 200 with the user's active cart carrying
exactly the cart lines of `CartItems` that have the cart's `ID`, each with an
`Item` equal to the entry of `Items` for its `ItemID`; in both cases the store
after the call is the store before it. -/
theorem GetUserCart_reachable {db : InMemoryDB} (h : Reachable db) (userID : Nat) :
    (activeCarts db userID = [] →
      GetUserCart (some userID) db =
        (.responded StatusNotFound (.error "Cart not found"), db)) ∧
    (activeCarts db userID ≠ [] →
      ∃ kc, activeCarts db userID = [kc] ∧
        GetUserCart (some userID) db =
          (.responded StatusOK
            (.cart { kc.2 with CartItems := (cartLines db kc.2.ID).map Prod.snd }), db) ∧
        ∀ line ∈ (cartLines db kc.2.ID).map Prod.snd,
          db.Items.get? line.ItemID = some line.Item) := by
  have hfree := h.seeded.2.1
  have hlock := RWMutex.RLock_of_free hfree
  have hback := runlock_rlocked hlock
  have hfind : findActiveCart { db with Mutex := { db.Mutex with readers := db.Mutex.readers + 1 } }
      userID = findActiveCart db userID := rfl
  constructor
  · intro hnone
    have h0 : findActiveCart db userID = none := by
      rw [findActiveCart_eq_head, hnone]; rfl
    unfold GetUserCart
    simp only [hlock, hfind, h0]
    rw [hback]
  · intro hsome
    have hlen : (activeCarts db userID).length ≤ 1 :=
      le_trans (List.length_filter_le _ _) h.carts_length
    obtain ⟨kc, hkc⟩ : ∃ kc, activeCarts db userID = [kc] := by
      cases hl : activeCarts db userID with
      | nil => exact absurd hl hsome
      | cons a l =>
        cases l with
        | nil => exact ⟨a, rfl⟩
        | cons b l => rw [hl] at hlen; simp at hlen
    have hf : findActiveCart db userID = some kc := by
      rw [findActiveCart_eq_head, hkc]; rfl
    refine ⟨kc, hkc, ?_, ?_⟩
    · obtain ⟨k, cart⟩ := kc
      unfold GetUserCart
      simp only [hlock, hfind, hf]
      rw [hback]
      rfl
    · intro line hline
      obtain ⟨kv, hkv, rfl⟩ := List.mem_map.1 hline
      exact (h.lines kv (List.mem_filter.1 hkv).1).2

/-- C17, at the store with one line: user 9 receives cart 10 with the line for
item 1, and user 5, who has no cart, receives 404. -/
theorem GetUserCart_reachable_witness :
    Reachable oneLineDB ∧
    (GetUserCart (some 5) oneLineDB).1.status? = some StatusNotFound ∧
    (GetUserCart (some 5) oneLineDB).2 = oneLineDB ∧
    (GetUserCart (some 9) oneLineDB).1.status? = some StatusOK ∧
    (GetUserCart (some 9) oneLineDB).2 = oneLineDB := by
  have h5 := (GetUserCart_reachable oneLineDB_reachable 5).1 rfl
  obtain ⟨kc, _, h9, _⟩ := (GetUserCart_reachable oneLineDB_reachable 9).2
    (by rw [show activeCarts oneLineDB 9 = [_] from rfl]; exact List.cons_ne_nil _ _)
  refine ⟨oneLineDB_reachable, ?_, ?_, ?_, ?_⟩
  · rw [h5]; rfl
  · rw [h5]
  · rw [h9]; rfl
  · rw [h9]

/-! ## Listing the orders of a user -/

/-- C16, the code at the failing input.  In `twoOrdersDB` user 9 has order 11,
created at 1700000100, and order 14, created at 1700000200, and `range` over
`Orders` visits 11 first; `GetUserOrders` answers 200 with order 11 before order
14, the earlier order first. -/
theorem GetUserOrders_earlier_first :
    twoOrdersDB.Orders.map (fun ko => (ko.1, ko.2.UserID, ko.2.CreatedAt)) =
      [(11, 9, 1700000100), (14, 9, 1700000200)] ∧
    (GetUserOrders (some 9) twoOrdersDB).1.status? = some StatusOK ∧
    ((GetUserOrders (some 9) twoOrdersDB).1.orders?).map
        (fun os => os.map (fun o => (o.ID, o.CreatedAt))) =
      some [(11, 1700000100), (14, 1700000200)] :=
  ⟨rfl, rfl, rfl⟩

/-! ## Clearing the cart -/

/-- The fold of `firstByPrimaryKey` started on a cart ends on a cart, the start
or one of the list. -/
theorem firstByPrimaryKey_fold (l : List Cart) (b : Cart) :
    ∃ c, l.foldl
        (fun best c =>
          match best with
          | none => some c
          | some b => if c.ID < b.ID then some c else some b)
        (some b) = some c ∧ (c = b ∨ c ∈ l) := by
  induction l generalizing b with
  | nil => exact ⟨b, rfl, Or.inl rfl⟩
  | cons a l ih =>
    rw [List.foldl_cons]
    by_cases hlt : a.ID < b.ID
    · obtain ⟨c, hc, hmem⟩ := ih a
      refine ⟨c, ?_, ?_⟩
      · simpa only [if_pos hlt] using hc
      · rcases hmem with hmem | hmem
        · exact Or.inr (hmem ▸ List.mem_cons_self _ _)
        · exact Or.inr (List.mem_cons_of_mem _ hmem)
    · obtain ⟨c, hc, hmem⟩ := ih b
      refine ⟨c, ?_, ?_⟩
      · simpa only [if_neg hlt] using hc
      · rcases hmem with hmem | hmem
        · exact Or.inl hmem
        · exact Or.inr (List.mem_cons_of_mem _ hmem)

/-- The answer `firstByPrimaryKey` is one the call of `ClearCart` allows: it is a
cart of the user, and it is missing only when the user has no cart. -/
theorem firstByPrimaryKey_answers : AnswersUserQuery firstByPrimaryKey := by
  intro db userID
  unfold firstByPrimaryKey
  cases hl : (db.Carts.filter (fun kc => decide (kc.2.UserID = userID))).map Prod.snd with
  | nil =>
    refine ⟨fun cart h => by simp at h, fun _ kc hkc hu => ?_⟩
    have hmem : kc.2 ∈ (db.Carts.filter (fun kc => decide (kc.2.UserID = userID))).map
        Prod.snd :=
      List.mem_map.2 ⟨kc, List.mem_filter.2 ⟨hkc, by simpa using hu⟩, rfl⟩
    rw [hl] at hmem
    cases hmem
  | cons a l =>
    obtain ⟨c, hc, hmem⟩ := firstByPrimaryKey_fold l a
    have hin : c ∈ (db.Carts.filter (fun kc => decide (kc.2.UserID = userID))).map
        Prod.snd := by
      rw [hl]
      rcases hmem with hmem | hmem
      · exact hmem ▸ List.mem_cons_self _ _
      · exact List.mem_cons_of_mem _ hmem
    obtain ⟨kc, hkc, hsnd⟩ := List.mem_map.1 hin
    have hkc' := List.mem_filter.1 hkc
    rw [List.foldl_cons]
    refine ⟨fun cart h => ?_, fun h => ?_⟩
    · have hcart : c = cart := by
        have := hc.symm.trans h
        exact Option.some.inj this
      subst hcart
      subst hsnd
      exact ⟨by simpa using hkc'.2, kc.1, hkc'.1⟩
    · rw [hc] at h
      cases h

/-- The handler `ClearCart` never reads the status of the cart its query
answers: whatever the answer, it answers 200 and deletes the lines of that
cart. -/
theorem ClearCart_of_answer (firstCart : InMemoryDB → Nat → Option Cart)
    (db : InMemoryDB) (userID : Nat) (cart : Cart)
    (hcart : firstCart db userID = some cart) :
    ClearCart (some userID) firstCart false db =
      (.responded StatusOK (.message "Cart cleared successfully"),
        deleteCartItems db cart.ID) := by
  unfold ClearCart
  simp only [hcart]
  rfl

/-- When the user has one cart, every answer the call allows is that cart,
whatever its status: `ClearCart` answers 200 and deletes its lines, also when
the cart is `"ordered"`. -/
theorem ClearCart_only_cart (firstCart : InMemoryDB → Nat → Option Cart)
    (hanswers : AnswersUserQuery firstCart) (db : InMemoryDB) (userID k : Nat) (c : Cart)
    (honly : db.Carts.filter (fun kc => decide (kc.2.UserID = userID)) = [(k, c)]) :
    ClearCart (some userID) firstCart false db =
      (.responded StatusOK (.message "Cart cleared successfully"),
        deleteCartItems db c.ID) := by
  have hmemc : (k, c) ∈ db.Carts.filter (fun kc => decide (kc.2.UserID = userID)) := by
    rw [honly]
    exact List.mem_singleton.2 rfl
  have hc := List.mem_filter.1 hmemc
  cases hfirst : firstCart db userID with
  | none =>
    exact absurd (by simpa using hc.2) ((hanswers db userID).2 hfirst (k, c) hc.1)
  | some cart =>
    obtain ⟨huser, k', hk'⟩ := (hanswers db userID).1 cart hfirst
    have hin : (k', cart) ∈ db.Carts.filter (fun kc => decide (kc.2.UserID = userID)) :=
      List.mem_filter.2 ⟨hk', by simpa using huser⟩
    rw [honly] at hin
    have hpair := List.mem_singleton.1 hin
    have hcart : cart = c := (Prod.mk.inj hpair).2
    rw [← hcart]
    exact ClearCart_of_answer firstCart db userID cart hfirst

/-- The statement `Delete` of `ClearCart` removes every line of the cart and no
line of another cart, and deleting twice is deleting once. -/
theorem deleteCartItems_lines (db : InMemoryDB) (cartID : Nat) :
    cartLines (deleteCartItems db cartID) cartID = [] ∧
    (∀ other, other ≠ cartID →
      cartLines (deleteCartItems db cartID) other = cartLines db other) ∧
    deleteCartItems (deleteCartItems db cartID) cartID = deleteCartItems db cartID := by
  refine ⟨?_, ?_, ?_⟩
  · simp only [cartLines, deleteCartItems, List.filter_filter]
    rw [List.filter_eq_nil_iff]
    intro kv _
    simp
  · intro other hne
    simp only [cartLines, deleteCartItems, List.filter_filter]
    apply List.filter_congr
    intro kv _
    by_cases hkv : kv.2.CartID = other
    · simp [hkv, hne]
    · simp [hkv]
  · simp only [deleteCartItems, List.filter_filter, Bool.and_self]

/-- C18, the code at the failing input.  In `twoCartsDB` user 9 has the ordered
cart 10 with the line `"10-1"` and the active cart 12 with the line `"12-2"`.
The query of `ClearCart` carries the condition on the user only; answered in the
order of the primary key, an answer the call allows, it gives cart 10:
`ClearCart` answers 200, removes the line of the ordered cart and leaves the
line of the active cart. -/
theorem ClearCart_clears_oldest_cart :
    twoCartsDB.Carts.map (fun kc => (kc.1, kc.2.UserID, kc.2.Status)) =
      [(10, 9, "ordered"), (12, 9, "active")] ∧
    twoCartsDB.CartItems.map Prod.fst = ["10-1", "12-2"] ∧
    (findActiveCart twoCartsDB 9).map Prod.fst = some 12 ∧
    AnswersUserQuery firstByPrimaryKey ∧
    (firstByPrimaryKey twoCartsDB 9).map (fun cart => (cart.ID, cart.Status)) =
      some (10, "ordered") ∧
    (ClearCart (some 9) firstByPrimaryKey false twoCartsDB).1.status? = some StatusOK ∧
    (ClearCart (some 9) firstByPrimaryKey false twoCartsDB).2.CartItems.map Prod.fst =
      ["12-2"] :=
  ⟨rfl, by decide, rfl, firstByPrimaryKey_answers, rfl, rfl, by decide⟩

/-! ## Login -/

theorem RWMutex.RLock_of_no_writer {m : RWMutex} (h : m.writer = false) :
    m.RLock = some { m with readers := m.readers + 1 } := by
  unfold RWMutex.RLock
  rw [if_pos h]

/-- C19, counterexample.  In the seeded store the user `"admin"` exists and the
password verifies, but `utils.GenerateToken` reports an error: `LoginUser`
answers 500, not 200. -/
theorem LoginUser_token_error :
    seededDB.Users.map (fun ku => ku.2.Username) = ["admin"] ∧
    (LoginUser adminLogin (fun _ _ => true) (fun _ _ => none) seededDB).1.status? =
      some StatusInternalServerError :=
  ⟨rfl, rfl⟩

/-- C19, amended.  For a store whose mutex no writer holds, a token issuer that
returns no empty token, and a request with non-empty username and password:
`LoginUser` answers 401 when no user has that username, and 401 when the user
found does not verify the password; when the password verifies and
`utils.GenerateToken` returns a token it answers 200 with that token, which is
not empty, and the user found (its username, the token, the password blanked),
and stores the token with the user; when the password verifies and
`utils.GenerateToken` reports an error it answers 500.  The store is otherwise
unchanged. -/
theorem LoginUser_answers (db : InMemoryDB) (req : UserRequest)
    (compareHashAndPassword : String → String → Bool)
    (generateToken : Nat → String → Option String)
    (hissues : IssuesTokens generateToken)
    (hread : db.Mutex.writer = false) (hname : req.Username ≠ "")
    (hpass : req.Password ≠ "") :
    ((∀ ku ∈ db.Users, ku.2.Username ≠ req.Username) →
      LoginUser req compareHashAndPassword generateToken db =
        (.responded StatusUnauthorized (.error "Invalid username or password"), db)) ∧
    (∀ k user,
      db.Users.find? (fun ku => decide (ku.2.Username = req.Username)) = some (k, user) →
      user.Username = req.Username ∧
      (compareHashAndPassword user.Password req.Password = false →
        LoginUser req compareHashAndPassword generateToken db =
          (.responded StatusUnauthorized (.error "Invalid username or password"), db)) ∧
      (compareHashAndPassword user.Password req.Password = true →
        ∀ token, generateToken user.ID user.Username = some token →
          token ≠ "" ∧
          LoginUser req compareHashAndPassword generateToken db =
            (.responded StatusOK
              (.login token { user with Token := token, Password := "" }),
             { db with Users := db.Users.set k { user with Token := token } })) ∧
      (compareHashAndPassword user.Password req.Password = true →
        generateToken user.ID user.Username = none →
          LoginUser req compareHashAndPassword generateToken db =
            (.responded StatusInternalServerError (.error "Failed to generate token"),
              db))) := by
  have hlock := RWMutex.RLock_of_no_writer hread
  have hback := runlock_rlocked hlock
  have hbind : ¬ (req.Username = "" ∨ req.Password = "") := by
    intro h
    rcases h with h | h
    · exact hname h
    · exact hpass h
  have hmutex : ({ db.Mutex with readers := db.Mutex.readers + 1 } : RWMutex).RUnlock =
      db.Mutex := by
    cases hm : db.Mutex
    simp [RWMutex.RUnlock]
  constructor
  · intro hnone
    have hfind : db.Users.find? (fun ku => decide (ku.2.Username = req.Username)) = none := by
      rw [List.find?_eq_none]
      intro ku hku
      simpa using hnone ku hku
    unfold LoginUser
    rw [if_neg hbind]
    simp only [hlock, hfind]
    rw [hback]
  · intro k user hfind
    have huser : user.Username = req.Username := by
      have := List.find?_some hfind
      simpa using this
    refine ⟨huser, ?_, ?_, ?_⟩
    · intro hcmp
      unfold LoginUser
      rw [if_neg hbind]
      simp only [hlock, hfind, hcmp, if_true]
      rw [hback]
    · intro hcmp token htoken
      refine ⟨hissues _ _ _ htoken, ?_⟩
      unfold LoginUser
      rw [if_neg hbind]
      simp only [hlock, hfind, hcmp, htoken, Bool.true_eq_false, if_false, hmutex]
    · intro hcmp htoken
      unfold LoginUser
      rw [if_neg hbind]
      simp only [hlock, hfind, hcmp, htoken, Bool.true_eq_false, if_false]
      rw [hback]

/-- C19 amended, at the seeded store with an issuer that returns `"token-9"`:
the administrator logs in with a verifying password and receives the token,
which is not empty and is stored with the user; a login for `"nobody"` is
answered with 401. -/
theorem LoginUser_answers_witness :
    IssuesTokens (fun _ _ => some "token-9") ∧
    seededDB.Mutex.writer = false ∧ adminLogin.Username ≠ "" ∧ adminLogin.Password ≠ "" ∧
    (∀ k user,
      seededDB.Users.find? (fun ku => decide (ku.2.Username = adminLogin.Username)) =
        some (k, user) →
      "token-9" ≠ "" ∧
      LoginUser adminLogin (fun _ _ => true) (fun _ _ => some "token-9") seededDB =
        (.responded StatusOK
          (.login "token-9" { user with Token := "token-9", Password := "" }),
         { seededDB with
           Users := seededDB.Users.set k { user with Token := "token-9" } })) ∧
    (LoginUser adminLogin (fun _ _ => true) (fun _ _ => some "token-9") seededDB).1.status? =
      some StatusOK ∧
    (LoginUser adminLogin (fun _ _ => true) (fun _ _ => some "token-9") seededDB).2.Users.map
      (fun ku => (ku.2.Username, ku.2.Token)) = [("admin", "token-9")] ∧
    LoginUser { Username := "nobody", Password := "secret" } (fun _ _ => true)
        (fun _ _ => some "token-9") seededDB =
      (.responded StatusUnauthorized (.error "Invalid username or password"), seededDB) := by
  have hissues : IssuesTokens (fun _ _ => some "token-9") := by
    intro _ _ token h
    rw [← Option.some.inj h]
    decide
  refine ⟨hissues, rfl, by decide, by decide, ?_, rfl, rfl, ?_⟩
  · intro k user hfind
    exact ((LoginUser_answers seededDB adminLogin (fun _ _ => true)
      (fun _ _ => some "token-9") hissues rfl (by decide) (by decide)).2 k user hfind).2.2.1
        rfl "token-9" rfl
  · exact (LoginUser_answers seededDB { Username := "nobody", Password := "secret" }
      (fun _ _ => true) (fun _ _ => some "token-9") hissues rfl (by decide) (by decide)).1
        (by
          intro ku hku
          rw [show seededDB.Users = [_] from rfl] at hku
          rw [List.mem_singleton.1 hku]
          decide)

/-! ## The frame of a successful AddToCart -/

/-- C21. In a reachable store, for a user whose active cart is `cart` and an
item `itemID` that is in `Items` and has no line in that cart, `AddToCart`
answers 201; afterwards `CartItems` is the previous `CartItems` followed by one
entry with `CartID = cart.ID` and `ItemID = itemID`, and `Users`, `Items`,
`Carts`, `Orders` and the identifier counter are as before. -/
theorem AddToCart_frame {db : InMemoryDB} (h : Reachable db)
    {userID k itemID : Nat} {cart : Cart} {item : Item}
    (hcart : findActiveCart db userID = some (k, cart))
    (hitem : db.Items.get? itemID = some item)
    (hnew : linesOf db cart.ID itemID = []) :
    (AddToCart (some userID) { ItemID := itemID } db).1 =
      .responded StatusCreated (.message "Item added to cart successfully") ∧
    (∃ line : String × CartItem,
      (AddToCart (some userID) { ItemID := itemID } db).2.CartItems = db.CartItems ++ [line] ∧
      line.2.CartID = cart.ID ∧ line.2.ItemID = itemID ∧
      line.1 = cartItemKey cart.ID itemID) ∧
    (AddToCart (some userID) { ItemID := itemID } db).2.Users = db.Users ∧
    (AddToCart (some userID) { ItemID := itemID } db).2.Items = db.Items ∧
    (AddToCart (some userID) { ItemID := itemID } db).2.Carts = db.Carts ∧
    (AddToCart (some userID) { ItemID := itemID } db).2.Orders = db.Orders ∧
    (AddToCart (some userID) { ItemID := itemID } db).2.nextID = db.nextID ∧
    (AddToCart (some userID) { ItemID := itemID } db).2.Mutex = db.Mutex := by
  obtain ⟨_, hfree, hkeys⟩ := h.seeded
  have hid : ¬ (itemID = 0 ∨ 2 ^ uintBits ≤ itemID) := item_id_binds h hitem
  rw [AddToCart_created hfree hid hcart hitem (contains_key_eq_false hkeys hnew)]
  exact ⟨rfl, ⟨_, rfl, rfl, rfl, rfl⟩, rfl, rfl, rfl, rfl, rfl, rfl⟩

/-- C21, at the seeded store: user 9 adds item 3 to cart 10. -/
theorem AddToCart_frame_witness :
    Reachable seededDB ∧
    (AddToCart (some 9) { ItemID := 3 } seededDB).1.status? = some StatusCreated ∧
    (AddToCart (some 9) { ItemID := 3 } seededDB).2.CartItems.map Prod.fst = ["10-3"] ∧
    (AddToCart (some 9) { ItemID := 3 } seededDB).2.Carts = seededDB.Carts ∧
    (AddToCart (some 9) { ItemID := 3 } seededDB).2.nextID = 11 := by
  have h := @AddToCart_frame seededDB seededDB_reachable 9 10 3 _ _
    (show findActiveCart seededDB 9 = some (10, _) from rfl)
    (show seededDB.Items.get? 3 = some _ from rfl) rfl
  refine ⟨seededDB_reachable, ?_, by decide, h.2.2.2.2.1, ?_⟩
  · rw [h.1]; rfl
  · rw [h.2.2.2.2.2.2.1]; rfl

/-! ## Collision-freeness of the cart-line key -/

/-- C22. The key `"%d-%d"` of a cart line is collision-free: the keys of two
pairs are equal exactly when the pairs are equal; so in a store whose lines sit
under their own keys, the duplicate check of `AddToCart` finds the key of a pair
only when a line for that very pair exists. -/
theorem cartItemKey_collision_free (c₁ i₁ c₂ i₂ : Nat) :
    (cartItemKey c₁ i₁ = cartItemKey c₂ i₂ ↔ c₁ = c₂ ∧ i₁ = i₂) ∧
    ∀ db : InMemoryDB, KeysMatch db →
      (db.CartItems.contains (cartItemKey c₁ i₁) = true ↔ linesOf db c₁ i₁ ≠ []) := by
  refine ⟨⟨cartItemKey_injective, fun h => by rw [h.1, h.2]⟩, ?_⟩
  intro db hk
  constructor
  · intro hcontains hnone
    rw [contains_key_eq_false hk hnone] at hcontains
    cases hcontains
  · intro hsome
    obtain ⟨kv, hkv⟩ := List.exists_mem_of_ne_nil _ hsome
    have hmem := (List.mem_filter.1 hkv).1
    have hpair := (List.mem_filter.1 hkv).2
    simp only [Bool.and_eq_true, decide_eq_true_eq] at hpair
    unfold GoMap.contains
    rw [List.any_eq_true]
    refine ⟨kv, hmem, ?_⟩
    rw [hk kv hmem, hpair.1, hpair.2]
    simp

/-- C22, on keys that look alike: `"1-23"` and `"12-3"` differ, and in the store
with the line `"10-1"` the check finds the key of (10, 1) and not the key of
(1, 1) or of (101, 1). -/
theorem cartItemKey_collision_free_witness :
    cartItemKey 1 23 ≠ cartItemKey 12 3 ∧
    oneLineDB.CartItems.contains (cartItemKey 10 1) = true ∧
    oneLineDB.CartItems.contains (cartItemKey 1 1) = false ∧
    oneLineDB.CartItems.contains (cartItemKey 101 1) = false := by
  have hk : KeysMatch oneLineDB := oneLineDB_reachable.seeded.2.2
  refine ⟨?_, ?_, ?_, ?_⟩
  · intro h
    have := ((cartItemKey_collision_free 1 23 12 3).1.1 h).1
    omega
  · exact ((cartItemKey_collision_free 10 1 10 1).2 oneLineDB hk).2 (by
      rw [show linesOf oneLineDB 10 1 = [_] from rfl]; exact List.cons_ne_nil _ _)
  · by_contra hc
    have hc' : oneLineDB.CartItems.contains (cartItemKey 1 1) = true := by
      simpa using hc
    exact ((cartItemKey_collision_free 1 1 1 1).2 oneLineDB hk).1 hc' rfl
  · by_contra hc
    have hc' : oneLineDB.CartItems.contains (cartItemKey 101 1) = true := by
      simpa using hc
    exact ((cartItemKey_collision_free 101 1 101 1).2 oneLineDB hk).1 hc' rfl

/-! ## Reading a map after a write -/

theorem GoMap.get_set_self {K V : Type} [DecidableEq K] (m : GoMap K V) (k : K) (v : V) :
    (m.set k v).get? k = some v := by
  induction m with
  | nil => simp [GoMap.set, GoMap.get?]
  | cons kv m ih =>
    obtain ⟨k', v'⟩ := kv
    by_cases hk : k' = k
    · simp [GoMap.set, GoMap.get?, hk]
    · unfold GoMap.get? at ih
      simp [GoMap.set, GoMap.get?, hk, ih]

theorem GoMap.get_set_ne {K V : Type} [DecidableEq K] (m : GoMap K V) (k k' : K) (v : V)
    (hne : k' ≠ k) : (m.set k v).get? k' = m.get? k' := by
  induction m with
  | nil =>
    have hne' : ¬ k = k' := fun h => hne h.symm
    simp [GoMap.set, GoMap.get?, hne']
  | cons kv m ih =>
    obtain ⟨k₀, v₀⟩ := kv
    unfold GoMap.get? at ih
    by_cases hk : k₀ = k
    · have hk' : ¬ k = k' := fun h => hne h.symm
      have hk₀ : ¬ k₀ = k' := fun h => hk' (hk ▸ h)
      simp [GoMap.set, GoMap.get?, hk, hk', List.find?_cons]
    · by_cases h₀ : k₀ = k'
      · subst h₀
        simp [GoMap.set, GoMap.get?, hk, List.find?_cons]
      · simp [GoMap.set, GoMap.get?, hk, h₀, List.find?_cons, ih]

/-! ## The rate limiter -/

/-- A later reading makes every recorded request older. -/
theorem Time.Sub_mono {now now' : Int} (h : now ≤ now') (t : Int) :
    Time.Sub now t ≤ Time.Sub now' t := by
  unfold Time.Sub minDuration maxDuration
  omega

/-- A request that is younger than the window at a later reading was so at an
earlier one. -/
theorem younger_of_later {window now now' : Int} (h : now ≤ now') {t : Int}
    (hy : younger window now' t = true) : younger window now t = true := by
  unfold younger at hy ⊢
  have := Time.Sub_mono h t
  simp only [decide_eq_true_eq] at hy ⊢
  omega

/-- Cleaning at an earlier reading does not change what is left after cleaning
at a later one. -/
theorem filter_younger_later {window now now' : Int} (h : now ≤ now') (l : List Int) :
    (l.filter (younger window now)).filter (younger window now') =
      l.filter (younger window now') := by
  rw [List.filter_filter]
  apply List.filter_congr
  intro t _
  cases hy : younger window now' t with
  | false => simp
  | true => simp [younger_of_later h hy]

/-- What one call of `Allow` does, on a limiter whose mutex is free: it returns;
it denies exactly when the cleaned record of the address has `limit` entries or
more; the new record of the address is the cleaned record, followed by the
reading when the request is allowed; nothing else changes. -/
theorem RateLimiter.Allow_spec (rl : RateLimiter) (ip : String) (now : Int)
    (hfree : rl.mutex.free) :
    ∃ ok rl', rl.Allow ip now = some (ok, rl') ∧
      rl'.mutex = rl.mutex ∧ rl'.limit = rl.limit ∧ rl'.window = rl.window ∧
      (ok = false ↔
        rl.limit ≤ (((rl.record ip).filter (younger rl.window now)).length : Int)) ∧
      rl'.record ip = (rl.record ip).filter (younger rl.window now) ++
        (if ok = true then [now] else []) ∧
      ∀ ip', ip' ≠ ip → rl'.record ip' = rl.record ip' := by
  have hlock := RWMutex.Lock_of_free hfree
  have hu := (RWMutex.Lock_eq_some hlock).2.2
  unfold RateLimiter.Allow
  rw [hlock]
  cases hget : rl.requests.get? ip with
  | none =>
    have hrec : rl.record ip = [] := by simp [RateLimiter.record, hget]
    simp only [hget, RateLimiter.record, Option.getD_none, List.length_nil, hu]
    by_cases hlim : rl.limit ≤ ((0 : Nat) : Int)
    · rw [if_pos hlim]
      refine ⟨false, _, rfl, rfl, rfl, rfl, ?_, ?_, fun ip' _ => rfl⟩
      · simpa [hrec] using hlim
      · simp [hget]
    · rw [if_neg hlim]
      refine ⟨true, _, rfl, rfl, rfl, rfl, ?_, ?_, fun ip' hne => ?_⟩
      · simpa [hrec] using hlim
      · simp [GoMap.get_set_self]
      · simp [GoMap.get_set_ne _ _ _ _ hne]
  | some requests =>
    have hrec : rl.record ip = requests := by simp [RateLimiter.record, hget]
    simp only [hget, RateLimiter.record, GoMap.get_set_self, Option.getD_some, hu]
    by_cases hlim : rl.limit ≤ (((requests.filter (younger rl.window now)).length : Nat) : Int)
    · rw [if_pos hlim]
      refine ⟨false, _, rfl, rfl, rfl, rfl, ?_, ?_, fun ip' hne => ?_⟩
      · simpa [hrec] using hlim
      · simp [GoMap.get_set_self]
      · simp [GoMap.get_set_ne _ _ _ _ hne]
    · rw [if_neg hlim]
      refine ⟨true, _, rfl, rfl, rfl, rfl, ?_, ?_, fun ip' hne => ?_⟩
      · simpa [hrec] using hlim
      · simp [GoMap.get_set_self]
      · simp [GoMap.get_set_ne _ _ _ _ hne]

theorem allowedOf_append (log : List (String × Int)) (ip ip' : String) (now : Int) :
    allowedOf (log ++ [(ip, now)]) ip' =
      allowedOf log ip' ++ (if ip = ip' then [now] else []) := by
  unfold allowedOf
  rw [List.filter_append, List.map_append]
  by_cases h : ip = ip'
  · simp [h]
  · simp [h]

/-- What a run of the limiter maintains: the mutex is free between calls, the
parameters are those it was created with, no record is longer than `limit`,
and at every later reading the cleaned record of an address holds exactly the
allowed requests of that address that are younger than the window. -/
theorem LimiterRun.maintains {limit window : Int} (hlimit : 0 ≤ limit) {rl : RateLimiter}
    {last : Int} {log : List (String × Int)} (h : LimiterRun limit window rl last log) :
    rl.mutex.free ∧ rl.limit = limit ∧ rl.window = window ∧
    (∀ ip, ((rl.record ip).length : Int) ≤ limit) ∧
    (∀ ip now, last ≤ now →
      (rl.record ip).filter (younger window now) =
        (allowedOf log ip).filter (younger window now)) := by
  induction h with
  | created start =>
    refine ⟨⟨rfl, rfl⟩, rfl, rfl, fun ip => ?_, fun ip now _ => rfl⟩
    simpa [NewRateLimiter, RateLimiter.record, GoMap.get?] using hlimit
  | allow rl rl' last now log log' _ hstep ih =>
    obtain ⟨hfree, hlim, hwin, hlen, hrec⟩ := ih
    obtain ⟨ip, ok, hclock, hallow, hlog⟩ := hstep
    obtain ⟨ok', rl'', hspec, hm, hl, hw, hdeny, hnew, hother⟩ :=
      RateLimiter.Allow_spec rl ip now hfree
    rw [hspec] at hallow
    simp only [Option.some.injEq, Prod.mk.injEq] at hallow
    obtain ⟨hok, hrl⟩ := hallow
    subst hok
    subst hrl
    rw [hwin] at hnew hdeny
    rw [hlim] at hdeny
    refine ⟨by rw [hm]; exact hfree, hl.trans hlim, hw.trans hwin, ?_, ?_⟩
    · intro ip'
      by_cases hip : ip' = ip
      · subst hip
        rw [hnew]
        have hle : (((rl.record ip').filter (younger window now)).length : Int) ≤
            ((rl.record ip').length : Int) := by
          exact_mod_cast List.length_filter_le _ _
        have hold := hlen ip'
        cases hok : ok' with
        | false => simp only [hok, Bool.false_eq_true, if_false, List.append_nil]; omega
        | true =>
          have hnot : ¬ limit ≤ (((rl.record ip').filter (younger window now)).length : Int) := by
            intro hc
            have := hdeny.2 hc
            rw [hok] at this
            cases this
          simp only [hok, if_true, List.length_append, List.length_singleton]
          push_cast
          omega
      · rw [hother ip' hip]
        exact hlen ip'
    · intro ip' now' hnow'
      by_cases hip : ip' = ip
      · subst hip
        rw [hnew, hlog, List.filter_append, filter_younger_later hnow',
          hrec ip' now' (le_trans hclock hnow')]
        cases hok : ok' with
        | false => simp
        | true => simp [allowedOf_append, List.filter_append]
      · rw [hother ip' hip, hrec ip' now' (le_trans hclock hnow'), hlog]
        have hne : ¬ ip = ip' := fun h => hip h.symm
        cases hok : ok' with
        | false => simp
        | true => simp [allowedOf_append, hne]

/-- C23. For a limiter created by `NewRateLimiter limit window` with
`1 ≤ limit`, after any sequence of `Allow` calls with non-decreasing clock
readings, the next call `Allow ip` at a reading `now` returns; it returns false
exactly when `limit` of the requests of `ip` allowed so far are younger than
the window at `now`; a denied request is not recorded; no record is longer than
`limit` afterwards; and the record of every other address is unchanged. -/
theorem Allow_limits {limit window : Int} (hlimit : 1 ≤ limit) {rl : RateLimiter}
    {last : Int} {log : List (String × Int)} (hrun : LimiterRun limit window rl last log)
    (ip : String) (now : Int) (hclock : last ≤ now) :
    ∃ ok rl', rl.Allow ip now = some (ok, rl') ∧
      (ok = false ↔
        (((allowedOf log ip).filter (younger window now)).length : Int) = limit) ∧
      (((allowedOf log ip).filter (younger window now)).length : Int) ≤ limit ∧
      (ok = false → rl'.record ip = (rl.record ip).filter (younger window now)) ∧
      (ok = true → rl'.record ip = (rl.record ip).filter (younger window now) ++ [now]) ∧
      (∀ ip', ((rl'.record ip').length : Int) ≤ limit) ∧
      (∀ ip', ip' ≠ ip → rl'.record ip' = rl.record ip') := by
  obtain ⟨hfree, hlim, hwin, hlen, hrec⟩ := hrun.maintains (by omega)
  obtain ⟨ok, rl', hspec, _, _, _, hdeny, hnew, hother⟩ :=
    RateLimiter.Allow_spec rl ip now hfree
  have hnext : LimiterRun limit window rl' now
      (if ok = true then log ++ [(ip, now)] else log) :=
    LimiterRun.allow rl rl' last now log _ hrun ⟨ip, ok, hclock, hspec, rfl⟩
  rw [hlim, hwin, hrec ip now hclock] at hdeny
  rw [hwin] at hnew
  have hcount : (((allowedOf log ip).filter (younger window now)).length : Int) ≤ limit := by
    rw [← hrec ip now hclock]
    have hle : (((rl.record ip).filter (younger window now)).length : Int) ≤
        ((rl.record ip).length : Int) := by
      exact_mod_cast List.length_filter_le _ _
    have := hlen ip
    omega
  refine ⟨ok, rl', hspec, ?_, hcount, ?_, ?_, (hnext.maintains (by omega)).2.2.2.1, hother⟩
  · constructor
    · intro hok
      have := hdeny.1 hok
      omega
    · intro heq
      exact hdeny.2 (by omega)
  · intro hok
    rw [hnew, hok]
    simp
  · intro hok
    rw [hnew, hok]
    simp

/-- C23, for `NewRateLimiter 2 60` after allowed requests of `"10.0.0.1"` at 0
and 10: a third request at 20 is denied and leaves the record as it is, and the
record of `"10.0.0.2"` stays empty. -/
theorem Allow_limits_witness :
    LimiterRun 2 60 sampleLimiter 10 [("10.0.0.1", 0), ("10.0.0.1", 10)] ∧
    (sampleLimiter.Allow "10.0.0.1" 20).map Prod.fst = some false ∧
    (sampleLimiter.Allow "10.0.0.1" 20).map (fun r => r.2.requests) =
      some [("10.0.0.1", [0, 10])] ∧
    ∃ ok rl', sampleLimiter.Allow "10.0.0.1" 20 = some (ok, rl') ∧
      (ok = false ↔
        (((allowedOf [("10.0.0.1", 0), ("10.0.0.1", 10)] "10.0.0.1").filter
          (younger 60 20)).length : Int) = 2) ∧
      (((allowedOf [("10.0.0.1", 0), ("10.0.0.1", 10)] "10.0.0.1").filter
          (younger 60 20)).length : Int) ≤ 2 ∧
      (ok = false →
        rl'.record "10.0.0.1" = (sampleLimiter.record "10.0.0.1").filter (younger 60 20)) ∧
      (ok = true →
        rl'.record "10.0.0.1" =
          (sampleLimiter.record "10.0.0.1").filter (younger 60 20) ++ [20]) ∧
      (∀ ip', ((rl'.record ip').length : Int) ≤ 2) ∧
      (∀ ip', ip' ≠ "10.0.0.1" → rl'.record ip' = sampleLimiter.record ip') := by
  have h0 : LimiterRun 2 60 (NewRateLimiter 2 60) 0 [] := LimiterRun.created 0
  have h1 : LimiterRun 2 60
      (((NewRateLimiter 2 60).Allow "10.0.0.1" 0).getD (false, NewRateLimiter 2 60)).2 0
      [("10.0.0.1", 0)] :=
    LimiterRun.allow _ _ 0 0 [] _ h0 ⟨"10.0.0.1", true, le_refl _, rfl, rfl⟩
  have h2 : LimiterRun 2 60 sampleLimiter 10 [("10.0.0.1", 0), ("10.0.0.1", 10)] :=
    LimiterRun.allow _ _ 0 10 _ _ h1 ⟨"10.0.0.1", true, by decide, rfl, rfl⟩
  exact ⟨h2, rfl, rfl, Allow_limits (by decide) h2 "10.0.0.1" 20 (by decide)⟩

/-! ## Paging -/

theorem int64Wrap_of_range {x : Int} (hlo : -9223372036854775808 ≤ x) (hhi : x ≤ maxInt64) :
    int64Wrap x = x := by
  unfold int64Wrap
  unfold maxInt64 at hhi
  omega

/-- Rounding up: `(total + limit - 1) / limit` is the least `n` whose multiple
of `limit` reaches `total`. -/
theorem ceil_div_least (total limit : Int) (hlimit : 0 < limit) :
    total ≤ (total + limit - 1) / limit * limit ∧
    ∀ n : Int, total ≤ n * limit → (total + limit - 1) / limit ≤ n := by
  have hlt := Int.lt_ediv_add_one_mul_self (total + limit - 1) hlimit
  have hle := Int.ediv_mul_le (total + limit - 1) (ne_of_gt hlimit)
  constructor
  · have : ((total + limit - 1) / limit + 1) * limit =
        (total + limit - 1) / limit * limit + limit := by ring
    omega
  · intro n hn
    by_contra hcon
    have hstep : n + 1 ≤ (total + limit - 1) / limit := by omega
    have hmul : (n + 1) * limit ≤ (total + limit - 1) / limit * limit :=
      Int.mul_le_mul_of_nonneg_right hstep (le_of_lt hlimit)
    have : (n + 1) * limit = n * limit + limit := by ring
    omega

/-- C24, counterexample.  For the page `9223372036854775807`, the value `Atoi`
yields for a text above the range of `int`, and the limit 20, the effective page
is that value and the offset wraps to `-40`; for `total = 9223372036854775807`
and the limit 20 the sum wraps and `totalPages` is negative. -/
theorem GetItems_offset_wraps :
    (GetItemsPaging 9223372036854775807 20).page = 9223372036854775807 ∧
    (GetItemsPaging 9223372036854775807 20).limit = 20 ∧
    (GetItemsPaging 9223372036854775807 20).offset = -40 ∧
    GetItemsTotalPages 9223372036854775807 20 < 0 := by
  decide

/-- C24, amended.  For every parsed `page` and `limit`: the effective page is
at least 1; the effective limit lies in 1..100, it is 20 when the given limit is
below 1 or above 100 and the given limit otherwise; when `(page - 1) * limit`
on the effective values does not exceed the largest `int`, the offset is that
product and is non-negative; and for every `total ≥ 0` for which
`total + limit - 1` does not exceed the largest `int64`, `totalPages` is the
least `n` with `n * limit ≥ total`. -/
theorem GetItems_paging (page limit : Int) :
    1 ≤ (GetItemsPaging page limit).page ∧
    1 ≤ (GetItemsPaging page limit).limit ∧ (GetItemsPaging page limit).limit ≤ 100 ∧
    (limit < 1 ∨ 100 < limit → (GetItemsPaging page limit).limit = 20) ∧
    (1 ≤ limit → limit ≤ 100 → (GetItemsPaging page limit).limit = limit) ∧
    (((GetItemsPaging page limit).page - 1) * (GetItemsPaging page limit).limit ≤ maxInt64 →
      0 ≤ (GetItemsPaging page limit).offset ∧
      (GetItemsPaging page limit).offset =
        ((GetItemsPaging page limit).page - 1) * (GetItemsPaging page limit).limit) ∧
    ∀ total : Int, 0 ≤ total → total + (GetItemsPaging page limit).limit - 1 ≤ maxInt64 →
      total ≤ GetItemsTotalPages total (GetItemsPaging page limit).limit *
        (GetItemsPaging page limit).limit ∧
      ∀ n : Int, total ≤ n * (GetItemsPaging page limit).limit →
        GetItemsTotalPages total (GetItemsPaging page limit).limit ≤ n := by
  have hpage : (GetItemsPaging page limit).page = if page < 1 then 1 else page := rfl
  have hlimit : (GetItemsPaging page limit).limit =
      if limit < 1 ∨ limit > 100 then 20 else limit := rfl
  have hoffset : (GetItemsPaging page limit).offset =
      int64Wrap (int64Wrap ((GetItemsPaging page limit).page - 1) *
        (GetItemsPaging page limit).limit) := rfl
  have hp1 : 1 ≤ (GetItemsPaging page limit).page := by
    rw [hpage]; split <;> omega
  have hl1 : 1 ≤ (GetItemsPaging page limit).limit ∧ (GetItemsPaging page limit).limit ≤ 100 := by
    rw [hlimit]; split <;> omega
  refine ⟨hp1, hl1.1, hl1.2, ?_, ?_, ?_, ?_⟩
  · intro h
    rw [hlimit, if_pos (by omega)]
  · intro h1 h2
    rw [hlimit, if_neg (by omega)]
  · intro hfit
    generalize (GetItemsPaging page limit).page = p at hp1 hfit hoffset
    generalize (GetItemsPaging page limit).limit = l at hl1 hfit hoffset
    generalize (GetItemsPaging page limit).offset = o at hoffset
    have hnonneg : 0 ≤ (p - 1) * l := Int.mul_nonneg (by omega) (by omega)
    have hfirst : p - 1 ≤ (p - 1) * l := by
      have := Int.mul_le_mul_of_nonneg_left (show (1 : Int) ≤ l by omega)
        (show (0 : Int) ≤ p - 1 by omega)
      simpa using this
    have hw1 : int64Wrap (p - 1) = p - 1 :=
      int64Wrap_of_range (by omega) (by omega)
    rw [hw1, int64Wrap_of_range (by omega) hfit] at hoffset
    rw [hoffset]
    exact ⟨hnonneg, rfl⟩
  · intro total htotal hfit
    generalize (GetItemsPaging page limit).limit = l at hl1 hfit
    have hw : int64Wrap (int64Wrap (total + l) - 1) = total + l - 1 := by
      unfold int64Wrap
      unfold maxInt64 at hfit
      omega
    have hdiv : GetItemsTotalPages total l = (total + l - 1) / l := by
      unfold GetItemsTotalPages
      rw [hw]
      exact Int.tdiv_eq_ediv (by omega) (by omega)
    rw [hdiv]
    exact ceil_div_least total l (by omega)

/-- C24 amended, for page 3 and limit 0 (an unparsable limit): page 3, limit 20,
offset 40, and 45 items make 3 pages. -/
theorem GetItems_paging_witness :
    GetItemsPaging 3 0 = { page := 3, limit := 20, offset := 40 } ∧
    GetItemsTotalPages 45 20 = 3 ∧
    0 ≤ (GetItemsPaging 3 0).offset ∧
    (45 : Int) ≤ GetItemsTotalPages 45 (GetItemsPaging 3 0).limit * (GetItemsPaging 3 0).limit :=
  ⟨by decide, by decide,
   ((GetItems_paging 3 0).2.2.2.2.2.1 (by decide)).1,
   ((GetItems_paging 3 0).2.2.2.2.2.2 45 (by decide) (by decide)).1⟩
